import Mathlib

/-!
Verification of the MRS Microplex/CC16 CAN bootloader protocol engine
(`mrs_bl_protocol.py`) against its natural-language specification.

The Python source is shallowly embedded: pure data manipulations become
Lean functions on `List Nat` (byte values); the stateful send/receive
protocol sequences become functions threading an explicit environment of
incoming frames (`Env`) and producing a list of bus events.
-/

/-- A CAN frame: 29-bit arbitration id plus up to 8 data bytes.  Byte
values are `Nat`s; real frames carry values below 256. -/
structure Frame where
  id : Nat
  data : List Nat
deriving DecidableEq, Repr

-- MRS-used CAN IDs (source lines 87-95).
def ACK_ID : Nat := 0x1ffffff0
def CMD_ID : Nat := 0x1ffffff1
def RSP_ID : Nat := 0x1ffffff2
def SREC_ID : Nat := 0x1ffffff3
def DATA_ID : Nat := 0x1ffffff4
def EEPROM_ID : Nat := 0x1ffffff5
def CONSOLE_ID : Nat := 0x1ffffffe

/-- Big-endian value of a byte list (`struct.unpack` of `>H` / `>I`). -/
def beVal (l : List Nat) : Nat := l.foldl (fun a b => a * 256 + b) 0

/-- `struct.pack(">H", v)`. -/
def pack16be (v : Nat) : List Nat := [v / 256 % 256, v % 256]

/-- `struct.pack(">I", v)`. -/
def pack32be (v : Nat) : List Nat :=
  [v / 16777216 % 256, v / 65536 % 256, v / 256 % 256, v % 256]

/-! ## S-record fragmentation (`Module._program`, source lines 730-781)

A memory record is sent as a sequence of SREC frames; the expected
response differs for the first, intermediate and final fragment. -/

/-- Which acknowledgement `Module._program` expects after a fragment. -/
inductive SrecAck
  | start_ok
  | cont_ok
  | end_ok
deriving DecidableEq, Repr

/-- The `while len(srec) > 8` loop of `_program` (source lines 760-766)
followed by the final fragment send (lines 769-774): intermediate 8-byte
fragments expecting `srec_cont_ok`, then the last `<= 8`-byte fragment
expecting `srec_end_ok`. -/
def srecTailFragments (srec : List Nat) : List (List Nat × SrecAck) :=
  if h : 8 < srec.length then
    (srec.take 8, SrecAck.cont_ok) :: srecTailFragments (srec.drop 8)
  else
    [(srec.take 8, SrecAck.end_ok)]
termination_by srec.length
decreasing_by simp only [List.length_drop]; omega

/-- The full fragment sequence for one memory record: the
`if len(srec) > 8` initial-fragment step (source lines 751-757) expecting
`srec_start_ok`, then the intermediate/final fragments. -/
def programFragments (srec : List Nat) : List (List Nat × SrecAck) :=
  if 8 < srec.length then
    (srec.take 8, SrecAck.start_ok) :: srecTailFragments (srec.drop 8)
  else
    [(srec.take 8, SrecAck.end_ok)]

/-! ## EEPROM read chunking (`Module._read_eeprom`, source lines 631-648) -/

/-- The `(address, count)` arguments of the successive
`MSG_read_eeprom` commands issued by `_read_eeprom`:
`amount = length if length <= 8 else 8`, then both `address` and the
remaining `length` advance by `amount` (source lines 640-646). -/
def readEepromCmds (address length : Nat) : List (Nat × Nat) :=
  if h : 0 < length then
    (address, min length 8) ::
      readEepromCmds (address + min length 8) (length - min length 8)
  else
    []
termination_by length
decreasing_by omega

/-- The bytes accumulated by `_read_eeprom` (`result += bytes(rsp.data)`,
source line 647), with the module's DATA replies supplied by the oracle
`resp address count`. -/
def readEepromResult (resp : Nat → Nat → List Nat) (address length : Nat) :
    List Nat :=
  if h : 0 < length then
    resp address (min length 8) ++
      readEepromResult resp (address + min length 8) (length - min length 8)
  else
    []
termination_by length
decreasing_by omega

/-! ## The receive codec (`RXMessage.__init__`, source lines 205-221)

Each RX message kind declares an expected arbitration id, a struct
format, and per-field filter constants.  Since every format field is a
fixed-width big-endian integer or a fixed-width byte string, comparing an
unpacked field against its constant is equivalent to comparing the
field's raw byte segment against the constant's bytes; fields are
therefore modelled as `(byte width, optional constant bytes)`. -/

/-- An RX message kind: `expected_id`, `_format` and `_filter`. -/
structure RXKind where
  expectedId : Nat
  fields : List (Nat × Option (List Nat))
deriving DecidableEq, Repr

/-- `struct.calcsize(self._format)`. -/
def RXKind.size (k : RXKind) : Nat := (k.fields.map Prod.fst).sum

/-- The ways `RXMessage.__init__` (and the `MSG_erase_done` subclass
check, source lines 380-381) can raise `MessageError`. -/
inductive DecodeErr
  | wrongId
  | wrongLength
  | fieldMismatch (index : Nat)
  | extraCheck
deriving DecidableEq, Repr

/-- The filter loop of `RXMessage.__init__` (source lines 217-221):
fields are checked in index order and the first filtered field whose
bytes differ from its constant raises. -/
def checkFields : List (Nat × Option (List Nat)) → List Nat → Nat →
    Option DecodeErr
  | [], _, _ => none
  | (sz, filt) :: rest, bytes, idx =>
    match filt with
    | some c =>
      if bytes.take sz = c then checkFields rest (bytes.drop sz) (idx + 1)
      else some (DecodeErr.fieldMismatch idx)
    | none => checkFields rest (bytes.drop sz) (idx + 1)

/-- `RXMessage.__init__`: arbitration id check (source line 208), then
length check (line 212), then the filter-field loop (line 217). -/
def decodeRX (k : RXKind) (f : Frame) : Option DecodeErr :=
  if f.id ≠ k.expectedId then some DecodeErr.wrongId
  else if f.data.length ≠ k.size then some DecodeErr.wrongLength
  else checkFields k.fields f.data 0

-- The concrete RX message kinds (source lines 228-434).

/-- `MSG_ack`: format `>BIBH`, no filters (lines 228-234). -/
def ackKind : RXKind :=
  ⟨ACK_ID, [(1, none), (4, none), (1, none), (2, none)]⟩

/-- `MSG_selected`: format `>HIH`, opcode filter 0x2110 (lines 266-276). -/
def selectedKind : RXKind :=
  ⟨RSP_ID, [(2, some [0x21, 0x10]), (4, none), (2, none)]⟩

/-- `MSG_eeprom_open`: format `>H3s`, filters 0x2111 / `01 00 00`
(lines 284-290). -/
def eepromOpenKind : RXKind :=
  ⟨RSP_ID, [(2, some [0x21, 0x11]), (3, some [0x01, 0x00, 0x00])]⟩

/-- `MSG_eeprom_write_ok`: format `>H3s`, filters 0x20e8 / `00 00 00`
(lines 297-303). -/
def eepromWriteOkKind : RXKind :=
  ⟨RSP_ID, [(2, some [0x20, 0xe8]), (3, some [0x00, 0x00, 0x00])]⟩

/-- `MSG_eeprom_closed`: format `>H3s`, filters 0x20f0 / `02 00 00`
(lines 310-316). -/
def eepromClosedKind : RXKind :=
  ⟨RSP_ID, [(2, some [0x20, 0xf0]), (3, some [0x02, 0x00, 0x00])]⟩

/-- `MSG_program_nak`: format `>HIH`, opcode filter 0x2fff
(lines 323-332). -/
def programNakKind : RXKind :=
  ⟨RSP_ID, [(2, some [0x2f, 0xff]), (4, none), (2, none)]⟩

/-- `MSG_program_ack`: format `>HIH`, opcode filter 0x2100
(lines 340-345). -/
def programAckKind : RXKind :=
  ⟨RSP_ID, [(2, some [0x21, 0x00]), (4, none), (2, none)]⟩

/-- `MSG_progress`: format `>BBBB`, filters on first and last byte
(lines 353-362). -/
def progressKind : RXKind :=
  ⟨RSP_ID, [(1, some [0]), (1, none), (1, none), (1, some [0])]⟩

/-- `MSG_erase_done`: format `>HBB`, filters 0x0000 / final byte 0x01
(lines 370-375). -/
def eraseDoneKind : RXKind :=
  ⟨RSP_ID, [(2, some [0x00, 0x00]), (1, none), (1, some [0x01])]⟩

/-- `MSG_srec_start_ok`: format `>5s` (lines 384-387). -/
def srecStartOkKind : RXKind :=
  ⟨RSP_ID, [(5, some [0x00, 0x01, 0x01, 0x01, 0x01])]⟩

/-- `MSG_srec_cont_ok`: format `>2s` (lines 394-397). -/
def srecContOkKind : RXKind :=
  ⟨RSP_ID, [(2, some [0x00, 0x01])]⟩

/-- `MSG_srec_end_ok`: format `>3s` (lines 404-407). -/
def srecEndOkKind : RXKind :=
  ⟨RSP_ID, [(3, some [0x00, 0x00, 0x01])]⟩

/-- `MSG_srecords_done`: format `>3s` (lines 414-417). -/
def srecordsDoneKind : RXKind :=
  ⟨RSP_ID, [(3, some [0x00, 0x12, 0x34])]⟩

/-- `MSG_no_program`: format `>5s` (lines 424-430). -/
def noProgramKind : RXKind :=
  ⟨RSP_ID, [(5, some [0x00, 0x02, 0x02, 0x02, 0x02])]⟩

/-- All RX message kinds defined by the source. -/
def allRXKinds : List RXKind :=
  [ackKind, selectedKind, eepromOpenKind, eepromWriteOkKind,
   eepromClosedKind, programNakKind, programAckKind, progressKind,
   eraseDoneKind, srecStartOkKind, srecContOkKind, srecEndOkKind,
   srecordsDoneKind, noProgramKind]

/-- `MSG_erase_done.__init__` (source lines 377-381): the generic codec
checks, then additionally `self._values[1] not in [0, 0xff]` raises
`MessageError` — `_values[1]` is the unfiltered byte at offset 2. -/
def decodeEraseDone (f : Frame) : Option DecodeErr :=
  match decodeRX eraseDoneKind f with
  | some e => some e
  | none =>
    if f.data[2]? = some 0x00 ∨ f.data[2]? = some 0xff then none
    else some DecodeErr.extraCheck

/-- Two payloads agree on every filter-flagged field segment of the given
field list (they may differ arbitrarily on unfiltered fields). -/
def agreeOnFilters : List (Nat × Option (List Nat)) → List Nat → List Nat →
    Bool
  | [], _, _ => true
  | (sz, filt) :: rest, b, c =>
    (filt.isNone || (b.take sz == c.take sz)) &&
      agreeOnFilters rest (b.drop sz) (c.drop sz)

/-! ## Protocol runs

A protocol sequence is modelled as a function threading the environment:
`Env` is the list of successive results of `Interface.recv` (with `none`
for a timeout; an exhausted list also times out), and each run appends
the frames it sends to a list of bus `Event`s. -/

/-- Successive `Interface.recv` results seen by a run. -/
abbrev Env := List (Option Frame)

/-- An observable bus action of a run. -/
inductive Event
  /-- `Interface.send` of a frame. -/
  | send (id : Nat) (data : List Nat)
  /-- `_erase` parsed `MSG_erase_done` and left its receive loop
  (source lines 717-720). -/
  | eraseComplete
deriving DecidableEq, Repr

/-- The Python exception that terminates a run. -/
inductive PyError
  | messageError
  | moduleError
  /-- Source line 628 raises `CanError`, a name defined nowhere in the
  program; evaluating it raises `NameError`. -/
  | nameError
  /-- `struct.pack` called with the wrong number of items for its
  format raises `struct.error`. -/
  | structError
  | runtimeError
  | unicodeEncodeError
  | typeError
  | indexError
deriving DecidableEq, Repr

/-- Decidable equality for run results. -/
instance {e a : Type} [DecidableEq e] [DecidableEq a] :
    DecidableEq (Except e a) := fun x y =>
  match x, y with
  | Except.error u, Except.error v =>
    if h : u = v then isTrue (by rw [h])
    else isFalse (by intro hh; cases hh; exact h rfl)
  | Except.ok u, Except.ok v =>
    if h : u = v then isTrue (by rw [h])
    else isFalse (by intro hh; cases hh; exact h rfl)
  | Except.error _, Except.ok _ => isFalse (by intro hh; cases hh)
  | Except.ok _, Except.error _ => isFalse (by intro hh; cases hh)

-- TX frames (source lines 103-194).

/-- `MSG_ping`: format `>H`, opcode 0 (lines 118-123). -/
def MSG_ping : Frame := ⟨CMD_ID, [0x00, 0x00]⟩

/-- `MSG_select`: format `>HI`, opcode 0x2010 (lines 126-133). -/
def MSG_select (module_id : Nat) : Frame :=
  ⟨CMD_ID, [0x20, 0x10] ++ pack32be module_id⟩

/-- `MSG_read_eeprom`: format `>HHB`, opcode 0x2003 (lines 136-144). -/
def MSG_read_eeprom (address count : Nat) : Frame :=
  ⟨CMD_ID, [0x20, 0x03] ++ pack16be address ++ [count % 256]⟩

/-- The `struct.pack('>H3c', opcode, args...)` call made by
`MSG_write_eeprom.__init__` (source lines 147-154).  The format names
four items — one `H` and three `c` (a count before `c` is a *repeat*
count, unlike `s`), each `c` taking a one-byte bytes object — and an
argument tuple of any other shape raises `struct.error`. -/
def pack_H3c (opcode : Nat) (args : List (List Nat)) :
    Except PyError (List Nat) :=
  if args.length = 3 ∧ args.all (fun a => a.length = 1) then
    Except.ok (pack16be opcode ++ args.flatten)
  else
    Except.error PyError.structError

/-- `MSG_write_eeprom()` (source lines 147-154): the constructor packs
`'>H3c'` with the two items `0x2011` and the single 3-byte unlock
bytes object, where the format requires four items, so constructing
this message always raises `struct.error`. -/
def MSG_write_eeprom : Except PyError Frame :=
  (pack_H3c 0x2011 [[0xf3, 0x33, 0xaf]]).map (fun d => ⟨CMD_ID, d⟩)

/-- `MSG_write_eeprom_data`: EEPROM-ID frame, 16-bit big-endian address
followed by the data bytes (lines 157-161). -/
def MSG_write_eeprom_data (address : Nat) (data : List Nat) : Frame :=
  ⟨EEPROM_ID, pack16be address ++ data⟩

/-- `MSG_close_eeprom`: opcode 0x2002 (lines 164-169). -/
def MSG_close_eeprom : Frame := ⟨CMD_ID, [0x20, 0x02]⟩

/-- `MSG_program`: opcode 0x2000 (lines 172-177). -/
def MSG_program : Frame := ⟨CMD_ID, [0x20, 0x00]⟩

/-- `MSG_erase`: opcode 0x0202 (lines 180-185). -/
def MSG_erase : Frame := ⟨CMD_ID, [0x02, 0x02]⟩

/-- `MSG_srecord`: raw S-record fragment on SREC_ID (lines 188-194). -/
def MSG_srecord (data : List Nat) : Frame := ⟨SREC_ID, data⟩

/-- `Module._cmd` without a `reply_class` (source lines 610-621): send
the message, then one `recv`; a timeout raises `ModuleError`. -/
def runCmd (msg : Frame) (env : Env) (evs : List Event) :
    Except PyError Frame × Env × List Event :=
  let evs := evs ++ [Event.send msg.id msg.data]
  match env with
  | [] => (Except.error PyError.moduleError, [], evs)
  | none :: rest => (Except.error PyError.moduleError, rest, evs)
  | some r :: rest => (Except.ok r, rest, evs)

/-- `Module._cmd` with a `reply_class` (source lines 616-620): the reply
must additionally decode as `k`, a `MessageError` being promoted to
`ModuleError('unexpected reply type')`. -/
def runCmdChecked (msg : Frame) (k : RXKind) (env : Env) (evs : List Event) :
    Except PyError Frame × Env × List Event :=
  match runCmd msg env evs with
  | (Except.error e, env, evs) => (Except.error e, env, evs)
  | (Except.ok r, env, evs) =>
    match decodeRX k r with
    | some _ => (Except.error PyError.moduleError, env, evs)
    | none => (Except.ok r, env, evs)

/-- `Module._select` (source lines 623-629): `_cmd(MSG_select(id))`,
parse `MSG_selected` (a `MessageError` propagates unwrapped), then
compare the echoed module id; on mismatch the source raises the
undefined name `CanError`, i.e. a `NameError`.  Returns `sw_version`. -/
def runSelect (mid : Nat) (env : Env) (evs : List Event) :
    Except PyError Nat × Env × List Event :=
  match runCmd (MSG_select mid) env evs with
  | (Except.error e, env, evs) => (Except.error e, env, evs)
  | (Except.ok r, env, evs) =>
    match decodeRX selectedKind r with
    | some _ => (Except.error PyError.messageError, env, evs)
    | none =>
      if beVal ((r.data.drop 2).take 4) ≠ mid then
        (Except.error PyError.nameError, env, evs)
      else
        (Except.ok (beVal (r.data.drop 6)), env, evs)

/-- The `while len(data) > 0` body of `Module._write_eeprom` (source
lines 659-665): send `MSG_write_eeprom_data(address, data[:6])` expecting
`MSG_eeprom_write_ok`, then recurse on `data[6:]`.  Note the source
never advances `address` between chunks. -/
def writeChunksLoop (address : Nat) (data : List Nat) (env : Env)
    (evs : List Event) : Except PyError Unit × Env × List Event :=
  if h : 0 < data.length then
    match runCmdChecked (MSG_write_eeprom_data address (data.take 6))
        eepromWriteOkKind env evs with
    | (Except.error _, env, evs) => (Except.error PyError.moduleError, env, evs)
    | (Except.ok _, env, evs) => writeChunksLoop address (data.drop 6) env evs
  else
    (Except.ok (), env, evs)
termination_by data.length
decreasing_by simp only [List.length_drop]; omega

/-- `Module._write_eeprom` (source lines 650-669): select, then build
the unlock message — whose constructor always raises `struct.error`, a
type the surrounding `except ModuleError` (line 657) does not catch —
so the write-enable/chunk/close steps that follow in the source
(modelled faithfully in the unreachable `Except.ok` branch) are never
executed and no frame beyond the select command is ever sent. -/
def runWriteEeprom (mid address : Nat) (data : List Nat) (env : Env)
    (evs : List Event) : Except PyError Unit × Env × List Event :=
  match runSelect mid env evs with
  | (Except.error e, env, evs) => (Except.error e, env, evs)
  | (Except.ok _, env, evs) =>
    match MSG_write_eeprom with
    | Except.error e => (Except.error e, env, evs)
    | Except.ok unlock =>
      match runCmdChecked unlock eepromOpenKind env evs with
      | (Except.error _, env, evs) =>
        (Except.error PyError.moduleError, env, evs)
      | (Except.ok _, env, evs) =>
        match writeChunksLoop address data env evs with
        | (Except.error e, env, evs) => (Except.error e, env, evs)
        | (Except.ok _, env, evs) =>
          match runCmdChecked MSG_close_eeprom eepromClosedKind env evs with
          | (Except.error _, env, evs) =>
            (Except.error PyError.moduleError, env, evs)
          | (Except.ok _, env, evs) => (Except.ok (), env, evs)

-- A well-formed module response, used to build cooperating environments.

/-- A `selected` response echoing module id `mid` with `sw_version` 0. -/
def selectedFrame (mid : Nat) : Frame :=
  ⟨RSP_ID, [0x21, 0x10] ++ pack32be mid ++ [0x00, 0x00]⟩

/-! ## ACK parsing and scan (`MSG_ack`, `Interface.scan`) -/

/-- `REASON_MAP` (source lines 235-243). -/
def REASON_MAP : List (Nat × String) :=
  [(0x00, "power-on"), (0x01, "reset"), (0x11, "low-voltage reset"),
   (0x21, "clock lost"), (0x31, "address error"), (0x41, "illegal opcode"),
   (0x51, "watchdog timeout")]

/-- `STATUS_MAP` (source lines 244-247). -/
def STATUS_MAP : List (Nat × String) :=
  [(0, "OK"), (4, "NO PROG")]

/-- Dictionary lookup with the `except KeyError` default of
`MSG_ack.__init__` (source lines 256-263). -/
def mapLookup (m : List (Nat × String)) (k : Nat) (dflt : String) : String :=
  match m.find? (fun p => p.1 == k) with
  | some p => p.2
  | none => dflt

/-- A decoded `MSG_ack` (source lines 249-263). -/
structure Ack where
  reason_code : Nat
  module_id : Nat
  status_code : Nat
  sw_version : Nat
  reason : String
  status : String
deriving DecidableEq, Repr

/-- `MSG_ack(raw)`: the generic codec checks for format `>BIBH`, then
field extraction with the `REASON_MAP` / `STATUS_MAP` lookups.  `none`
stands for a raised `MessageError`. -/
def parseAck (f : Frame) : Option Ack :=
  match decodeRX ackKind f with
  | some _ => none
  | none =>
    match f.data with
    | [b0, b1, b2, b3, b4, b5, b6, b7] =>
      some { reason_code := b0
             module_id := beVal [b1, b2, b3, b4]
             status_code := b5
             sw_version := beVal [b6, b7]
             reason := mapLookup REASON_MAP b0 "unknown"
             status := mapLookup STATUS_MAP b5 "unknown" }
    | _ => none

/-- One entry of the table built by `Interface.scan`
(source lines 533-537). -/
structure ScanInfo where
  status : String
  reason : String
  sw_ver : Nat
deriving DecidableEq, Repr

/-- Python dict assignment `modules[ack.module_id] = {...}`: replace the
value at an existing key (keys are unique), otherwise append. -/
def dictInsert : List (Nat × ScanInfo) → Nat → ScanInfo →
    List (Nat × ScanInfo)
  | [], k, v => [(k, v)]
  | p :: rest, k, v =>
    if p.1 = k then (k, v) :: rest else p :: dictInsert rest k v

/-- Python dict lookup on the scan table. -/
def lookupDict (m : List (Nat × ScanInfo)) (k : Nat) : Option ScanInfo :=
  (m.find? (fun p => p.1 == k)).map Prod.snd

/-- The reply-collection loop of `Interface.scan` (source lines 525-541)
over the ACK frames received during the scan window, in arrival order:
each reply must parse as `MSG_ack` (otherwise the scan raises
`MessageError`) and is entered into the table keyed by `module_id`.
`none` recv results merely trigger another ping and are omitted. -/
def scanAccum : List Frame → List (Nat × ScanInfo) →
    Except PyError (List (Nat × ScanInfo))
  | [], m => Except.ok m
  | f :: rest, m =>
    match parseAck f with
    | none => Except.error PyError.messageError
    | some a =>
      scanAccum rest (dictInsert m a.module_id ⟨a.status, a.reason, a.sw_version⟩)

/-- `Interface.scan` starting from the empty table
(source line 522). -/
def Interface_scan (frames : List Frame) :
    Except PyError (List (Nat × ScanInfo)) :=
  scanAccum frames []

/-- Specification-side reading of claim C10: the fields of the most
recently received ACK carrying a given module id (`rest` holds the
frames received after `f`, so its result overrides the one from `f`). -/
def mostRecentAck : List Frame → Nat → Option ScanInfo
  | [], _ => none
  | f :: rest, id =>
    (mostRecentAck rest id).or
      (match parseAck f with
       | some a =>
         if a.module_id = id then some ⟨a.status, a.reason, a.sw_version⟩
         else none
       | none => none)

/-! ## Flash-mode entry, erase and program
(`Module._wait_for_boot`, `_enter_flash_mode`, `_erase`, `_program`,
`Module.upload`; source lines 671-781, 838-842) -/

/-- `Module._wait_for_boot` (source lines 671-685): pop received
messages; a timeout raises `ModuleError`; frames failing `MSG_ack`
parsing, carrying another module id, or a reason other than `'reboot'`
are skipped.  (`REASON_MAP` contains no value `'reboot'`, so the break
condition is in fact never reached.) -/
def waitForBoot (mid : Nat) : Env → Except PyError Unit × Env
  | [] => (Except.error PyError.moduleError, [])
  | none :: rest => (Except.error PyError.moduleError, rest)
  | some r :: rest =>
    match parseAck r with
    | none => waitForBoot mid rest
    | some a =>
      if a.module_id = mid ∧ a.reason = "reboot" then (Except.ok (), rest)
      else waitForBoot mid rest

/-- Line 698 of the source: `MSG_program_ack(rsp)`; a parse failure
raises `MessageError` (outside any handler in `_enter_flash_mode`). -/
def ackCheck (r : Frame) : Except PyError Unit :=
  match decodeRX programAckKind r with
  | some _ => Except.error PyError.messageError
  | none => Except.ok ()

/-- `Module._enter_flash_mode` (source lines 687-698): select, send
`MSG_program`; if the reply parses as `MSG_program_nak`, wait for the
reboot broadcast, re-select and resend `MSG_program` (any `MessageError`
in that block is swallowed, keeping the original reply); finally the
current reply must parse as `MSG_program_ack`. -/
def enterFlashMode (mid : Nat) (env : Env) (evs : List Event) :
    Except PyError Unit × Env × List Event :=
  match runSelect mid env evs with
  | (Except.error e, env, evs) => (Except.error e, env, evs)
  | (Except.ok _, env, evs) =>
    match runCmd MSG_program env evs with
    | (Except.error e, env, evs) => (Except.error e, env, evs)
    | (Except.ok rsp, env, evs) =>
      match decodeRX programNakKind rsp with
      | some _ =>
        -- `MSG_program_nak(rsp)` raised: caught by `except MessageError`.
        (ackCheck rsp, env, evs)
      | none =>
        match waitForBoot mid env with
        | (Except.error e, env) => (Except.error e, env, evs)
        | (Except.ok _, env) =>
          match runSelect mid env evs with
          | (Except.error PyError.messageError, env, evs) =>
            -- `MSG_selected` parse failure inside `_select`: caught,
            -- `rsp` keeps its previous value.
            (ackCheck rsp, env, evs)
          | (Except.error e, env, evs) => (Except.error e, env, evs)
          | (Except.ok _, env, evs) =>
            match runCmd MSG_program env evs with
            | (Except.error e, env, evs) => (Except.error e, env, evs)
            | (Except.ok rsp2, env, evs) => (ackCheck rsp2, env, evs)

/-- The receive loop of `Module._erase` (source lines 713-728): each
received frame is first tried as `MSG_erase_done` (success ends the
loop), then as `MSG_progress` (continuing the loop); anything else —
or a timeout — raises `ModuleError`. -/
def eraseLoop : Env → List Event → Except PyError Unit × Env × List Event
  | [], evs => (Except.error PyError.moduleError, [], evs)
  | none :: rest, evs => (Except.error PyError.moduleError, rest, evs)
  | some r :: rest, evs =>
    match decodeEraseDone r with
    | none => (Except.ok (), rest, evs ++ [Event.eraseComplete])
    | some _ =>
      match decodeRX progressKind r with
      | some _ => (Except.error PyError.moduleError, rest, evs)
      | none => eraseLoop rest evs

/-- `Module._erase` (source lines 710-728): send `MSG_erase`, then the
progress/completion receive loop. -/
def runErase (env : Env) (evs : List Event) :
    Except PyError Unit × Env × List Event :=
  eraseLoop env (evs ++ [Event.send MSG_erase.id MSG_erase.data])

/-- Which RX kind `_program` expects after a fragment. -/
def srecAckKind : SrecAck → RXKind
  | SrecAck.start_ok => srecStartOkKind
  | SrecAck.cont_ok => srecContOkKind
  | SrecAck.end_ok => srecEndOkKind

/-- The per-record fragment loop of `Module._program` (source lines
750-774): each fragment is sent via `_cmd` and the reply must decode as
the fragment's expected acknowledgement, a `MessageError` being promoted
to `ModuleError`. -/
def sendFragments : List (List Nat × SrecAck) → Env → List Event →
    Except PyError Unit × Env × List Event
  | [], env, evs => (Except.ok (), env, evs)
  | (data, ack) :: rest, env, evs =>
    match runCmd (MSG_srecord data) env evs with
    | (Except.error e, env, evs) => (Except.error e, env, evs)
    | (Except.ok rsp, env, evs) =>
      match decodeRX (srecAckKind ack) rsp with
      | some _ => (Except.error PyError.moduleError, env, evs)
      | none => sendFragments rest env evs

/-- The `for srec in memory_records` loop of `_program`
(source lines 743-774). -/
def sendRecords : List (List Nat) → Env → List Event →
    Except PyError Unit × Env × List Event
  | [], env, evs => (Except.ok (), env, evs)
  | r :: rest, env, evs =>
    match sendFragments (programFragments r) env evs with
    | (Except.error e, env, evs) => (Except.error e, env, evs)
    | (Except.ok _, env, evs) => sendRecords rest env evs

/-- `Module._program` (source lines 730-782): split the records into
memory records and the terminal record (`records[-1]` on an empty list
raises `IndexError`), stream the memory records, then send the terminal
record expecting `MSG_srecords_done`. -/
def runProgram (records : List (List Nat)) (env : Env) (evs : List Event) :
    Except PyError Unit × Env × List Event :=
  match records.getLast? with
  | none => (Except.error PyError.indexError, env, evs)
  | some terminal =>
    match sendRecords records.dropLast env evs with
    | (Except.error e, env, evs) => (Except.error e, env, evs)
    | (Except.ok _, env, evs) =>
      match runCmd (MSG_srecord terminal) env evs with
      | (Except.error e, env, evs) => (Except.error e, env, evs)
      | (Except.ok rsp, env, evs) =>
        match decodeRX srecordsDoneKind rsp with
        | some _ => (Except.error PyError.moduleError, env, evs)
        | none => (Except.ok (), env, evs)

/-- `Module.upload` (source lines 838-842): flash-mode entry, then
erase, then S-record programming, each aborting the rest on error. -/
def upload (mid : Nat) (records : List (List Nat)) (env : Env) :
    Except PyError Unit × Env × List Event :=
  match enterFlashMode mid env [] with
  | (Except.error e, env, evs) => (Except.error e, env, evs)
  | (Except.ok _, env, evs) =>
    match runErase env evs with
    | (Except.error e, env, evs) => (Except.error e, env, evs)
    | (Except.ok _, env, evs) => runProgram records env evs

/-! ## EEPROM parameter map and parameter access
(`PARAMETER_MAP`, `Module._parameter`, `Module.parameter`,
`Module.set_parameter`; source lines 9-66, 788-828) -/

/-- A `struct` format from `PARAMETER_MAP`: `'nB'` byte groups, single
unsigned big-endian integers, or a fixed-width byte string `'ns'`. -/
inductive PFmt
  | bytes (n : Nat)
  | u8
  | u16
  | u32
  | str (n : Nat)
deriving DecidableEq, Repr

/-- `struct.calcsize` of a `PFmt`. -/
def PFmt.size : PFmt → Nat
  | PFmt.bytes n => n
  | PFmt.u8 => 1
  | PFmt.u16 => 2
  | PFmt.u32 => 4
  | PFmt.str n => n

/-- `PARAMETER_MAP` (source lines 11-48), in source order. -/
def PARAMETER_MAP : List (PFmt × String) :=
  [(PFmt.bytes 2, "_"),
   (PFmt.u16, "_ParameterMagic"),
   (PFmt.u32, "SerialNumber"),
   (PFmt.str 12, "PartNumber"),
   (PFmt.str 12, "DrawingNumber"),
   (PFmt.str 20, "Name"),
   (PFmt.str 8, "OrderNumber"),
   (PFmt.str 8, "TestDate"),
   (PFmt.u16, "HardwareVersion"),
   (PFmt.u8, "ResetCounter"),
   (PFmt.u16, "LibraryVersion"),
   (PFmt.u8, "ResetReasonLVD"),
   (PFmt.u8, "ResetReasonLOC"),
   (PFmt.u8, "ResetReasonILAD"),
   (PFmt.u8, "ResetReasonILOP"),
   (PFmt.u8, "ResetReasonCOP"),
   (PFmt.u8, "MCUType"),
   (PFmt.u8, "HardwareCANActive"),
   (PFmt.bytes 3, "Reserved1"),
   (PFmt.u16, "BootloaderVersion"),
   (PFmt.u16, "ProgramState"),
   (PFmt.u16, "Portbyte1"),
   (PFmt.u16, "Portbyte2"),
   (PFmt.u16, "BaudrateBootloader1"),
   (PFmt.u16, "BaudrateBootloader2"),
   (PFmt.u8, "BootloaderIDExt1"),
   (PFmt.u32, "BootloaderID1"),
   (PFmt.u8, "BootloaderIDCRC1"),
   (PFmt.u8, "BootloaderIDExt2"),
   (PFmt.u32, "BootloaderID2"),
   (PFmt.u8, "BootloaderIDCRC2"),
   (PFmt.str 20, "SoftwareVersion"),
   (PFmt.str 30, "ModuleName"),
   (PFmt.u8, "BootloaderCANBus"),
   (PFmt.u16, "COPWatchdogTimeout"),
   (PFmt.bytes 7, "Reserved2")]

/-- `PARAMETER_WRITE_OK` (source lines 51-55). -/
def PARAMETER_WRITE_OK : List String :=
  ["BaudrateBootloader1", "SoftwareVersion", "ModuleName"]

/-- `BAUD_MAP` (source lines 59-66). -/
def BAUD_MAP : List (Nat × List Nat) :=
  [(1000, [0xfe, 0x01]),
   (800, [0xfd, 0x02]),
   (500, [0xfc, 0x03]),
   (250, [0xfb, 0x04]),
   (125, [0xfa, 0x05]),
   (100, [0xf6, 0x09])]

/-- `BAUD_MAP[value]`; `none` is a `KeyError`. -/
def baudLookup (k : Nat) : Option (List Nat) :=
  (BAUD_MAP.find? (fun p => p.1 == k)).map Prod.snd

/-- The lookup loop of `Module._parameter` (source lines 788-799):
running offset accumulated as the sum of preceding format sizes; an
unknown name raises `RuntimeError`. -/
def paramLookup : List (PFmt × String) → Nat → String → Option (Nat × PFmt)
  | [], _, _ => none
  | (fmt, name) :: rest, offset, target =>
    if name = target then some (offset, fmt)
    else paramLookup rest (offset + fmt.size) target

/-- `Module._parameter(parameter_name)`. -/
def Module_parameter_lookup (name : String) : Option (Nat × PFmt) :=
  paramLookup PARAMETER_MAP 0 name

/-- The EEPROM bytes `Module._read_eeprom(address, length)` returns from
a module whose memory is `mem` (each DATA reply carrying exactly the
requested bytes). -/
def eepromRead (mem : Nat → Nat) (address length : Nat) : List Nat :=
  readEepromResult (fun a c => (List.range c).map (fun i => mem (a + i)))
    address length

/-- `bytes.decode('ascii')`: fails on any byte above 0x7f; a decoded
Python `str` is represented by its list of code points. -/
def asciiDecode (bytes : List Nat) : Option (List Nat) :=
  if bytes.all (fun b => b < 128) then some bytes else none

/-- The value `Module.parameter` returns (source lines 801-809). -/
inductive PValue
  /-- `value[0].decode('ascii')` for a `'...s'` format: the raw bytes as
  code points, with no NUL stripping (`struct.unpack` of `s` keeps the
  full fixed width). -/
  | str (chars : List Nat)
  /-- `f-string '{:#x}'` rendering of a single unpacked integer. -/
  | hexText (n : Nat)
  /-- the unpacked tuple of a multi-value `'nB'` format. -/
  | tuple (vals : List Nat)
deriving DecidableEq, Repr

/-- `Module.parameter(parameter_name)` (source lines 801-809) reading
from memory `mem`: look the name up, read `calcsize` bytes, then decode
by format. -/
def Module_parameter (mem : Nat → Nat) (name : String) :
    Except PyError PValue :=
  match Module_parameter_lookup name with
  | none => Except.error PyError.runtimeError
  | some (address, fmt) =>
    let bytes := eepromRead mem address fmt.size
    match fmt with
    | PFmt.str _ =>
      match asciiDecode bytes with
      | none => Except.error PyError.unicodeEncodeError
      | some cs => Except.ok (PValue.str cs)
    | PFmt.u8 => Except.ok (PValue.hexText (beVal bytes))
    | PFmt.u16 => Except.ok (PValue.hexText (beVal bytes))
    | PFmt.u32 => Except.ok (PValue.hexText (beVal bytes))
    | PFmt.bytes _ => Except.ok (PValue.tuple bytes)

/-- Specification-side reading of claim C7: ASCII decoding *with
trailing NUL stripping*. -/
def stripTrailingNuls (l : List Nat) : List Nat :=
  (l.reverse.dropWhile (fun b => b == 0)).reverse

/-- A Python argument value for `set_parameter`: an `int` or a `str`
(the latter as a list of characters). -/
inductive PyVal
  | int (n : Nat)
  | str (chars : List Char)
deriving DecidableEq, Repr

/-- `str.encode('ascii')`: fails on any character above 0x7f. -/
def asciiEncode (cs : List Char) : Option (List Nat) :=
  if cs.all (fun c => c.toNat < 128) then some (cs.map Char.toNat)
  else none

/-- The UTF-8 byte length of a Python string (used by the spec's claim;
the source itself uses `len`, the character count). -/
def utf8Len (cs : List Char) : Nat := (cs.map Char.utf8Size).sum

/-- `Module.set_parameter(parameter_name, value)` (source lines
811-828): reject non-writable names; for `BaudrateBootloader1` look the
rate up in `BAUD_MAP` (a `KeyError` becomes `RuntimeError`, before any
frame is sent); for string formats reject values longer (in characters)
than the field, pad with NUL characters to the field width and write the
ASCII encoding (`encode('ascii')` raising `UnicodeEncodeError` on
non-ASCII values, before any frame is sent). -/
def Module_set_parameter (mid : Nat) (name : String) (value : PyVal)
    (env : Env) : Except PyError Unit × Env × List Event :=
  if name ∈ PARAMETER_WRITE_OK then
    match Module_parameter_lookup name with
    | none => (Except.error PyError.runtimeError, env, [])
    | some (address, fmt) =>
      if name = "BaudrateBootloader1" then
        match value with
        | PyVal.int k =>
          match baudLookup k with
          | none => (Except.error PyError.runtimeError, env, [])
          | some code => runWriteEeprom mid address code env []
        | PyVal.str _ => (Except.error PyError.runtimeError, env, [])
      else
        match fmt with
        | PFmt.str width =>
          match value with
          | PyVal.str cs =>
            if width < cs.length then
              (Except.error PyError.runtimeError, env, [])
            else
              match asciiEncode
                  (cs ++ List.replicate (width - cs.length)
                    (Char.ofNat 0)) with
              | none => (Except.error PyError.unicodeEncodeError, env, [])
              | some bytes => runWriteEeprom mid address bytes env []
          | PyVal.int _ => (Except.error PyError.typeError, env, [])
        | _ => (Except.error PyError.runtimeError, env, [])
  else
    (Except.error PyError.runtimeError, env, [])

/-- The padded byte string a successful string-parameter write sends. -/
def paddedBytes (cs : List Char) (width : Nat) : List Nat :=
  (cs ++ List.replicate (width - cs.length) (Char.ofNat 0)).map Char.toNat

/-! # Theorems -/

/-! ## C1: S-record fragmentation -/

theorem srecTailFragments_of_le {l : List Nat} (h : l.length ≤ 8) :
    srecTailFragments l = [(l, SrecAck.end_ok)] := by
  rw [srecTailFragments, dif_neg (by omega), List.take_of_length_le h]

theorem srecTailFragments_of_gt {l : List Nat} (h : 8 < l.length) :
    srecTailFragments l =
      (l.take 8, SrecAck.cont_ok) :: srecTailFragments (l.drop 8) := by
  rw [srecTailFragments, dif_pos h]

/-- Structure of the intermediate/final fragments: some 8-byte
`cont_ok` fragments, one final `end_ok` fragment, partitioning the
input. -/
theorem srecTailFragments_struct :
    ∀ n (l : List Nat), l.length ≤ n →
    ∃ mids lastFrag,
      srecTailFragments l = mids ++ [(lastFrag, SrecAck.end_ok)] ∧
      (∀ p ∈ mids, p.2 = SrecAck.cont_ok ∧ p.1.length = 8) ∧
      mids.length = (l.length + 7) / 8 - 1 ∧
      (mids.map Prod.fst).flatten ++ lastFrag = l ∧
      lastFrag.length ≤ 8 ∧ (0 < l.length → 0 < lastFrag.length) := by
  intro n
  induction n with
  | zero =>
    intro l hl
    refine ⟨[], l, by rw [srecTailFragments_of_le (by omega)]; rfl, by simp,
      ?_, by simp, by omega, by omega⟩
    simp only [List.length_nil]
    omega
  | succ n ih =>
    intro l hl
    by_cases h8 : 8 < l.length
    · obtain ⟨mids, lastFrag, heq, hmids, hlen, hjoin, hlast, hpos⟩ :=
        ih (l.drop 8) (by simp only [List.length_drop]; omega)
      refine ⟨(l.take 8, SrecAck.cont_ok) :: mids, lastFrag, ?_, ?_, ?_, ?_,
        hlast, fun _ => hpos (by simp only [List.length_drop]; omega)⟩
      · rw [srecTailFragments_of_gt h8, heq]; rfl
      · intro p hp
        rcases List.mem_cons.mp hp with hp | hp
        · subst hp
          exact ⟨rfl, by simp only [List.length_take]; omega⟩
        · exact hmids p hp
      · simp only [List.length_cons, hlen, List.length_drop]
        omega
      · simp only [List.map_cons, List.flatten_cons]
        rw [List.append_assoc, hjoin, List.take_append_drop]
    · refine ⟨[], l, by rw [srecTailFragments_of_le (by omega)]; rfl, by simp,
        ?_, by simp, by omega, fun h => h⟩
      simp only [List.length_nil]
      omega

/-- The fragments sent for a record partition its bytes in order. -/
theorem programFragments_flatten (srec : List Nat) :
    ((programFragments srec).map Prod.fst).flatten = srec := by
  unfold programFragments
  by_cases h8 : 8 < srec.length
  · rw [if_pos h8]
    obtain ⟨mids, lastFrag, heq, -, -, hjoin, -, -⟩ :=
      srecTailFragments_struct (srec.drop 8).length (srec.drop 8) le_rfl
    rw [heq]
    simp only [List.map_cons, List.map_append, List.map_nil,
      List.flatten_cons, List.flatten_append, List.flatten_nil,
      List.append_nil]
    rw [hjoin, List.take_append_drop]
  · rw [if_neg h8, List.take_of_length_le (by omega)]
    simp

/-- C1.  For every memory S-record of length `L` streamed by
`Module._program`: if `L ≤ 8` a single SREC frame carrying the whole
record is sent, expecting `srec_end_ok`; if `8 < L ≤ 16`, a start
fragment of 8 bytes expecting `srec_start_ok` then an end fragment of
`L - 8` bytes expecting `srec_end_ok`; if `L > 16`, one 8-byte start
fragment, `⌈(L-8)/8⌉ - 1` middle fragments of 8 bytes each expecting
`srec_cont_ok`, and one final nonempty fragment of at most 8 bytes
expecting `srec_end_ok`; and in every case the fragments partition the
record's bytes in order. -/
theorem C1_srecord_fragmentation (srec : List Nat) :
    ((programFragments srec).map Prod.fst).flatten = srec ∧
    (srec.length ≤ 8 → programFragments srec = [(srec, SrecAck.end_ok)]) ∧
    (8 < srec.length → srec.length ≤ 16 →
      programFragments srec =
        [(srec.take 8, SrecAck.start_ok), (srec.drop 8, SrecAck.end_ok)] ∧
      (srec.take 8).length = 8 ∧ (srec.drop 8).length = srec.length - 8) ∧
    (16 < srec.length →
      ∃ mids lastFrag,
        programFragments srec =
          (srec.take 8, SrecAck.start_ok) ::
            (mids ++ [(lastFrag, SrecAck.end_ok)]) ∧
        (srec.take 8).length = 8 ∧
        mids.length = (srec.length - 8 + 7) / 8 - 1 ∧
        (∀ p ∈ mids, p.2 = SrecAck.cont_ok ∧ p.1.length = 8) ∧
        0 < lastFrag.length ∧ lastFrag.length ≤ 8) := by
  refine ⟨programFragments_flatten srec, ?_, ?_, ?_⟩
  · intro h8
    unfold programFragments
    rw [if_neg (by omega), List.take_of_length_le h8]
  · intro h8 h16
    unfold programFragments
    rw [if_pos h8,
      srecTailFragments_of_le (by simp only [List.length_drop]; omega)]
    exact ⟨rfl, by simp only [List.length_take]; omega, by simp⟩
  · intro h16
    obtain ⟨mids, lastFrag, heq, hmids, hlen, -, hlast, hpos⟩ :=
      srecTailFragments_struct (srec.drop 8).length (srec.drop 8) le_rfl
    refine ⟨mids, lastFrag, ?_, by simp only [List.length_take]; omega, ?_,
      hmids, hpos (by simp only [List.length_drop]; omega), hlast⟩
    · unfold programFragments
      rw [if_pos (by omega), heq]
    · rw [hlen]
      simp only [List.length_drop]

/-- Witness for C1 at a concrete 20-byte record (`L > 16`). -/
theorem C1_srecord_fragmentation_witness :
    16 < (List.range 20).length ∧
    (∃ mids lastFrag,
      programFragments (List.range 20) =
        ((List.range 20).take 8, SrecAck.start_ok) ::
          (mids ++ [(lastFrag, SrecAck.end_ok)]) ∧
      ((List.range 20).take 8).length = 8 ∧
      mids.length = ((List.range 20).length - 8 + 7) / 8 - 1 ∧
      (∀ p ∈ mids, p.2 = SrecAck.cont_ok ∧ p.1.length = 8) ∧
      0 < lastFrag.length ∧ lastFrag.length ≤ 8) :=
  ⟨by decide, (C1_srecord_fragmentation (List.range 20)).2.2.2 (by decide)⟩

/-! ## C4: EEPROM read chunking -/

theorem readEepromCmds_of_pos {A N : Nat} (h : 0 < N) :
    readEepromCmds A N =
      (A, min N 8) :: readEepromCmds (A + min N 8) (N - min N 8) := by
  rw [readEepromCmds, dif_pos h]

/-- Shape of the `read_eeprom` command sequence: `⌈N/8⌉` commands with
counts in `1..8` summing to `N`, starting at the base address, each
subsequent address advanced by the previous count. -/
theorem readEepromCmds_struct :
    ∀ n A N, N ≤ n →
    (readEepromCmds A N).length = (N + 7) / 8 ∧
    (∀ p ∈ readEepromCmds A N, 0 < p.2 ∧ p.2 ≤ 8) ∧
    ((readEepromCmds A N).map Prod.snd).sum = N ∧
    (0 < N → (readEepromCmds A N)[0]? = some (A, min N 8)) ∧
    (∀ i p q, (readEepromCmds A N)[i]? = some p →
      (readEepromCmds A N)[i + 1]? = some q → q.1 = p.1 + p.2) := by
  intro n
  induction n with
  | zero =>
    intro A N hN
    have h0 : N = 0 := by omega
    subst h0
    rw [readEepromCmds, dif_neg (by omega)]
    refine ⟨by simp, by simp, by simp, by omega, ?_⟩
    intro i p q hp
    simp at hp
  | succ n ih =>
    intro A N hN
    by_cases hpos : 0 < N
    · obtain ⟨ihlen, ihmem, ihsum, ihhead, ihadj⟩ :=
        ih (A + min N 8) (N - min N 8) (by omega)
      rw [readEepromCmds_of_pos hpos]
      refine ⟨?_, ?_, ?_, fun _ => List.getElem?_cons_zero, ?_⟩
      · simp only [List.length_cons, ihlen]
        omega
      · intro p hp
        rcases List.mem_cons.mp hp with hp | hp
        · subst hp
          exact ⟨by omega, by omega⟩
        · exact ihmem p hp
      · simp only [List.map_cons, List.sum_cons, ihsum]
        omega
      · intro i p q hp hq
        cases i with
        | zero =>
          rw [List.getElem?_cons_zero] at hp
          rw [List.getElem?_cons_succ] at hq
          obtain rfl : (A, min N 8) = p := Option.some.inj hp
          by_cases h0 : 0 < N - min N 8
          · rw [ihhead h0] at hq
            obtain rfl : (A + min N 8, min (N - min N 8) 8) = q :=
              Option.some.inj hq
            rfl
          · rw [readEepromCmds, dif_neg h0] at hq
            simp at hq
        | succ j =>
          rw [List.getElem?_cons_succ] at hp hq
          exact ihadj j p q hp hq
    · have h0 : N = 0 := by omega
      subst h0
      rw [readEepromCmds, dif_neg (by omega)]
      refine ⟨by simp, by simp, by simp, by omega, ?_⟩
      intro i p q hp
      simp at hp

/-- `_read_eeprom` returns exactly the requested number of bytes when
every DATA reply carries exactly the requested count. -/
theorem readEepromResult_length :
    ∀ n (resp : Nat → Nat → List Nat) A N, N ≤ n →
    (∀ a c, (resp a c).length = c) →
    (readEepromResult resp A N).length = N := by
  intro n
  induction n with
  | zero =>
    intro resp A N hN _
    have h0 : N = 0 := by omega
    subst h0
    rw [readEepromResult, dif_neg (by omega)]
    rfl
  | succ n ih =>
    intro resp A N hN hresp
    by_cases hpos : 0 < N
    · rw [readEepromResult, dif_pos hpos]
      rw [List.length_append, hresp,
        ih resp (A + min N 8) (N - min N 8) (by omega) hresp]
      omega
    · have h0 : N = 0 := by omega
      subst h0
      rw [readEepromResult, dif_neg (by omega)]
      rfl

/-- C4.  `Module._read_eeprom(A, N)` issues exactly `⌈N/8⌉`
`read_eeprom` commands, each with a count in `1..8`, the counts summing
to `N`; the first command reads at `A` and each later command's address
is the previous address plus the previous count; and the returned buffer
has exactly `N` bytes (given DATA replies of the requested length). -/
theorem C4_read_eeprom_chunking (resp : Nat → Nat → List Nat) (A N : Nat)
    (hresp : ∀ a c, (resp a c).length = c) :
    (readEepromCmds A N).length = (N + 7) / 8 ∧
    (∀ p ∈ readEepromCmds A N, 0 < p.2 ∧ p.2 ≤ 8) ∧
    ((readEepromCmds A N).map Prod.snd).sum = N ∧
    (0 < N → (readEepromCmds A N)[0]? = some (A, min N 8)) ∧
    (∀ i p q, (readEepromCmds A N)[i]? = some p →
      (readEepromCmds A N)[i + 1]? = some q → q.1 = p.1 + p.2) ∧
    (readEepromResult resp A N).length = N := by
  obtain ⟨h1, h2, h3, h4, h5⟩ := readEepromCmds_struct N A N le_rfl
  exact ⟨h1, h2, h3, h4, h5, readEepromResult_length N resp A N le_rfl hresp⟩

/-- Witness for C4 at `A = 100`, `N = 20` with maximal 8-byte DATA
replies. -/
theorem C4_read_eeprom_chunking_witness :
    (readEepromCmds 100 20).length = (20 + 7) / 8 ∧
    ((readEepromCmds 100 20).map Prod.snd).sum = 20 ∧
    (0 < 20 → (readEepromCmds 100 20)[0]? = some (100, min 20 8)) ∧
    (readEepromResult (fun _ c => List.range c) 100 20).length = 20 := by
  obtain ⟨h1, -, h3, h4, -, h6⟩ :=
    C4_read_eeprom_chunking (fun _ c => List.range c) 100 20
      (fun _ c => by simp)
  exact ⟨h1, h3, h4, h6⟩

/-! ## C5: receive-codec checks -/

/-- The filter loop can only report a field mismatch. -/
theorem checkFields_error_shape :
    ∀ fields (bytes : List Nat) idx e, checkFields fields bytes idx = some e →
    ∃ i, e = DecodeErr.fieldMismatch i := by
  intro fields
  induction fields with
  | nil =>
    intro bytes idx e h
    simp [checkFields] at h
  | cons p rest ih =>
    intro bytes idx e h
    obtain ⟨sz, filt⟩ := p
    cases filt with
    | none =>
      simp only [checkFields] at h
      exact ih _ _ _ h
    | some c =>
      simp only [checkFields] at h
      by_cases hc : bytes.take sz = c
      · rw [if_pos hc] at h
        exact ih _ _ _ h
      · rw [if_neg hc] at h
        exact ⟨idx, (Option.some.inj h).symm⟩

/-- A payload passing the filter loop still passes after arbitrary
changes to unfiltered fields. -/
theorem checkFields_transfer :
    ∀ fields (b c : List Nat) idx, checkFields fields b idx = none →
    agreeOnFilters fields b c = true → checkFields fields c idx = none := by
  intro fields
  induction fields with
  | nil =>
    intro b c idx _ _
    rfl
  | cons p rest ih =>
    intro b c idx h hag
    obtain ⟨sz, filt⟩ := p
    cases filt with
    | none =>
      simp only [checkFields] at h ⊢
      simp only [agreeOnFilters, Option.isNone_none, Bool.true_or,
        Bool.true_and] at hag
      exact ih _ _ _ h hag
    | some cst =>
      simp only [checkFields] at h ⊢
      simp only [agreeOnFilters, Option.isNone_some, Bool.false_or,
        Bool.and_eq_true, beq_iff_eq] at hag
      obtain ⟨heq, hrest⟩ := hag
      by_cases hb : b.take sz = cst
      · rw [if_pos hb] at h
        rw [if_pos (heq.symm.trans hb)]
        exact ih _ _ _ h hrest
      · rw [if_neg hb] at h
        exact absurd h (by simp)

/-- C5 (amended).  For every RX message kind of the program, the codec
(`RXMessage.__init__`) enforces the three checks in order — wrong
arbitration id is reported first; wrong payload length second, only when
the id matched; field filters last, only when id and length matched —
any violation raising `MessageError`, and a frame differing from an
accepted one only in unfiltered fields passes the codec's three checks.
The subclass `MSG_erase_done` additionally requires its unfiltered
second field to be `0x00` or `0xff`, so only for that kind can decoding
reject a frame whose unfiltered fields changed. -/
theorem C5_rx_decode_checks (k : RXKind) (hk : k ∈ allRXKinds)
    (f g : Frame) :
    (decodeRX k f = some DecodeErr.wrongId ↔ f.id ≠ k.expectedId) ∧
    (decodeRX k f = some DecodeErr.wrongLength ↔
      f.id = k.expectedId ∧ f.data.length ≠ k.size) ∧
    (decodeRX k f = none ↔ f.id = k.expectedId ∧ f.data.length = k.size ∧
      checkFields k.fields f.data 0 = none) ∧
    (∀ e, decodeRX k f = some e → e = DecodeErr.wrongId ∨
      e = DecodeErr.wrongLength ∨ ∃ i, e = DecodeErr.fieldMismatch i) ∧
    (decodeRX k f = none → g.id = f.id → g.data.length = f.data.length →
      agreeOnFilters k.fields f.data g.data = true → decodeRX k g = none) ∧
    (decodeEraseDone f = none ↔ decodeRX eraseDoneKind f = none ∧
      (f.data[2]? = some 0x00 ∨ f.data[2]? = some 0xff)) := by
  refine ⟨?_, ?_, ?_, ?_, ?_, ?_⟩
  · unfold decodeRX
    by_cases h1 : f.id = k.expectedId
    · rw [if_neg (by simp [h1])]
      by_cases h2 : f.data.length = k.size
      · rw [if_neg (by simp [h2])]
        constructor
        · intro h
          obtain ⟨i, hi⟩ := checkFields_error_shape _ _ _ _ h
          simp at hi
        · intro h
          exact absurd h1 h
      · rw [if_pos h2]
        simp [h1]
    · rw [if_pos h1]
      simp [h1]
  · unfold decodeRX
    by_cases h1 : f.id = k.expectedId
    · rw [if_neg (by simp [h1])]
      by_cases h2 : f.data.length = k.size
      · rw [if_neg (by simp [h2])]
        constructor
        · intro h
          obtain ⟨i, hi⟩ := checkFields_error_shape _ _ _ _ h
          simp at hi
        · intro h
          exact absurd h2 h.2
      · rw [if_pos h2]
        simp [h1, h2]
    · rw [if_pos h1]
      simp [h1]
  · unfold decodeRX
    by_cases h1 : f.id = k.expectedId
    · rw [if_neg (by simp [h1])]
      by_cases h2 : f.data.length = k.size
      · rw [if_neg (by simp [h2])]
        simp [h1, h2]
      · rw [if_pos h2]
        simp [h1, h2]
    · rw [if_pos h1]
      simp [h1]
  · unfold decodeRX
    by_cases h1 : f.id = k.expectedId
    · rw [if_neg (by simp [h1])]
      by_cases h2 : f.data.length = k.size
      · rw [if_neg (by simp [h2])]
        intro e h
        obtain ⟨i, hi⟩ := checkFields_error_shape _ _ _ _ h
        exact Or.inr (Or.inr ⟨i, hi⟩)
      · rw [if_pos h2]
        intro e h
        exact Or.inr (Or.inl (Option.some.inj h).symm)
    · rw [if_pos h1]
      intro e h
      exact Or.inl (Option.some.inj h).symm
  · intro hf hid hlen hag
    unfold decodeRX at hf ⊢
    by_cases h1 : f.id = k.expectedId
    · rw [if_neg (by simp [h1])] at hf
      by_cases h2 : f.data.length = k.size
      · rw [if_neg (by simp [h2])] at hf
        rw [if_neg (by simp [hid, h1]), if_neg (by simp [hlen, h2])]
        exact checkFields_transfer _ _ _ _ hf hag
      · rw [if_pos h2] at hf
        exact absurd hf (by simp)
    · rw [if_pos h1] at hf
      exact absurd hf (by simp)
  · unfold decodeEraseDone
    cases h : decodeRX eraseDoneKind f with
    | some e =>
      simp [h]
    | none =>
      split_ifs with hc
      · simp [h, hc]
      · simp [h, hc]

/-- Witness for C5: a `selected` reply for module 5 is accepted; so is
the frame obtained from it by changing the unfiltered module-id and
sw-version fields. -/
theorem C5_rx_decode_checks_witness :
    decodeRX selectedKind
      ⟨RSP_ID, [0x21, 0x10, 0x00, 0x00, 0x00, 0x09, 0x00, 0x01]⟩ = none :=
  ((C5_rx_decode_checks selectedKind (by decide)
      ⟨RSP_ID, [0x21, 0x10, 0x00, 0x00, 0x00, 0x05, 0x00, 0x00]⟩
      ⟨RSP_ID, [0x21, 0x10, 0x00, 0x00, 0x00, 0x09, 0x00, 0x01]⟩).2.2.2.2.1)
    (by decide) (by decide) (by decide) (by decide)

/-- Counterexample to C5 as stated: `MSG_erase_done` decoding rejects a
frame that differs from an accepted frame only in its unfiltered second
field (byte 2 changed from 0x00 to 0x05), even though the frame passes
all three codec checks. -/
theorem C5_erase_done_counterexample :
    decodeEraseDone ⟨RSP_ID, [0x00, 0x00, 0x00, 0x01]⟩ = none ∧
    agreeOnFilters eraseDoneKind.fields
      [0x00, 0x00, 0x00, 0x01] [0x00, 0x00, 0x05, 0x01] = true ∧
    decodeRX eraseDoneKind ⟨RSP_ID, [0x00, 0x00, 0x05, 0x01]⟩ = none ∧
    decodeEraseDone ⟨RSP_ID, [0x00, 0x00, 0x05, 0x01]⟩ =
      some DecodeErr.extraCheck := by
  decide

/-! ## Shared protocol-run lemmas -/

theorem runCmd_cons_some (msg r : Frame) (rest : Env) (evs : List Event) :
    runCmd msg (some r :: rest) evs =
      (Except.ok r, rest, evs ++ [Event.send msg.id msg.data]) := rfl

theorem runSelect_eq_ok (mid : Nat) (r : Frame) (rest : Env)
    (evs : List Event) (hdec : decodeRX selectedKind r = none)
    (hbe : beVal ((r.data.drop 2).take 4) = mid) :
    runSelect mid (some r :: rest) evs =
      (Except.ok (beVal (r.data.drop 6)), rest,
        evs ++ [Event.send CMD_ID ([0x20, 0x10] ++ pack32be mid)]) := by
  unfold runSelect
  rw [runCmd_cons_some]
  simp only [hdec]
  rw [if_neg (by rw [hbe]; exact fun h => h rfl)]
  rfl

theorem runCmd_evs (msg : Frame) (env : Env) (evs : List Event) :
    (runCmd msg env evs).2.2 = evs ++ [Event.send msg.id msg.data] := by
  unfold runCmd
  cases env with
  | nil => rfl
  | cons o rest => cases o <;> rfl

theorem runSelect_evs (mid : Nat) (env : Env) (evs : List Event) :
    (runSelect mid env evs).2.2 =
      evs ++ [Event.send CMD_ID ([0x20, 0x10] ++ pack32be mid)] := by
  unfold runSelect
  cases env with
  | nil => rfl
  | cons o rest =>
    cases o with
    | none => rfl
    | some r =>
      rw [runCmd_cons_some]
      simp only []
      cases hdec : decodeRX selectedKind r with
      | some e => rfl
      | none =>
        simp only []
        by_cases hbe : beVal ((r.data.drop 2).take 4) ≠ mid
        · rw [if_pos hbe]
          rfl
        · rw [if_neg hbe]
          rfl

/-- Constructing the EEPROM-unlock message always raises
`struct.error`: `'>H3c'` requires four items, the source supplies
two. -/
theorem MSG_write_eeprom_raises :
    MSG_write_eeprom = Except.error PyError.structError := by decide

/-- Over every environment, `_write_eeprom` fails and its trace is
exactly the one select command: no unlock, EEPROM-ID or close frame is
ever sent. -/
theorem runWriteEeprom_evs (mid address : Nat) (data : List Nat)
    (env : Env) (evs : List Event) :
    (∃ e, (runWriteEeprom mid address data env evs).1 = Except.error e) ∧
    (runWriteEeprom mid address data env evs).2.2 =
      evs ++ [Event.send CMD_ID ([0x20, 0x10] ++ pack32be mid)] := by
  unfold runWriteEeprom
  rcases hsel : runSelect mid env evs with ⟨r1, env1, evs1⟩
  have hevs1 : evs1 =
      evs ++ [Event.send CMD_ID ([0x20, 0x10] ++ pack32be mid)] := by
    have hh := runSelect_evs mid env evs
    rw [hsel] at hh
    exact hh
  cases r1 with
  | error e => exact ⟨⟨e, rfl⟩, hevs1⟩
  | ok sw =>
    rw [MSG_write_eeprom_raises]
    exact ⟨⟨PyError.structError, rfl⟩, hevs1⟩

/-- After a successful select exchange, `_write_eeprom` raises
`struct.error` (uncaught by the `except ModuleError` handler) having
sent only the select command. -/
theorem runWriteEeprom_after_select (mid address : Nat) (data : List Nat)
    (r : Frame) (rest : Env) (evs : List Event)
    (hdec : decodeRX selectedKind r = none)
    (hbe : beVal ((r.data.drop 2).take 4) = mid) :
    runWriteEeprom mid address data (some r :: rest) evs =
      (Except.error PyError.structError, rest,
        evs ++ [Event.send CMD_ID ([0x20, 0x10] ++ pack32be mid)]) := by
  unfold runWriteEeprom
  rw [runSelect_eq_ok mid r rest evs hdec hbe]
  simp only []
  rw [MSG_write_eeprom_raises]

/-! ## C2: EEPROM write -/

/-- C2 (amended).  `Module._write_eeprom(A, data)` never writes
anything: after the select exchange it raises `struct.error` while
constructing `MSG_write_eeprom` (`struct.pack('>H3c', ...)` supplies
two items where the format requires four), an exception the
`except ModuleError` handler does not catch.  Over every environment
the run fails, its trace is exactly the one select command, and no
EEPROM-ID frame is ever sent; the 6-byte chunking loop of lines
659-665 (which, as written, would resend the base address `A` with
every chunk rather than advancing it) is unreachable. -/
theorem C2_eeprom_write_struct_error (mid address : Nat) (data : List Nat)
    (env : Env) (r : Frame) (rest : Env)
    (hdec : decodeRX selectedKind r = none)
    (hbe : beVal ((r.data.drop 2).take 4) = mid) :
    MSG_write_eeprom = Except.error PyError.structError ∧
    (∃ e, (runWriteEeprom mid address data env []).1 = Except.error e) ∧
    (runWriteEeprom mid address data env []).2.2 =
      [Event.send CMD_ID ([0x20, 0x10] ++ pack32be mid)] ∧
    runWriteEeprom mid address data (some r :: rest) [] =
      (Except.error PyError.structError, rest,
        [Event.send CMD_ID ([0x20, 0x10] ++ pack32be mid)]) ∧
    ∀ d, Event.send EEPROM_ID d ∉
      (runWriteEeprom mid address data env []).2.2 := by
  obtain ⟨hs, hevs⟩ := runWriteEeprom_evs mid address data env []
  refine ⟨MSG_write_eeprom_raises, hs, by simpa using hevs, ?_, ?_⟩
  · have hh := runWriteEeprom_after_select mid address data r rest []
      hdec hbe
    simpa using hh
  · intro d hm
    rw [hevs] at hm
    simp [EEPROM_ID, CMD_ID] at hm

/-- Witness for C2: writing 7 bytes at address 0 to module 1, which
acknowledges the selection; the run stops with `struct.error` having
sent only the select command. -/
theorem C2_eeprom_write_struct_error_witness :
    runWriteEeprom 1 0 [1, 2, 3, 4, 5, 6, 7] [some (selectedFrame 1)] [] =
      (Except.error PyError.structError, [],
        [Event.send CMD_ID ([0x20, 0x10] ++ pack32be 1)]) :=
  (C2_eeprom_write_struct_error 1 0 [1, 2, 3, 4, 5, 6, 7] []
    (selectedFrame 1) [] (by decide) (by decide)).2.2.2.1

/-- Counterexample to C2 as stated: tracing `_write_eeprom(0, 01..07)`
against a module that acknowledged the selection, the whole trace is
the single select command — neither the claimed first chunk frame
(address 0, bytes 01..06) nor even the unlock frame is ever sent. -/
theorem C2_never_writes_counterexample :
    runWriteEeprom 1 0 [1, 2, 3, 4, 5, 6, 7] [some (selectedFrame 1)] [] =
      (Except.error PyError.structError, [],
        [Event.send CMD_ID [0x20, 0x10, 0x00, 0x00, 0x00, 0x01]]) ∧
    Event.send EEPROM_ID (pack16be 0 ++ [1, 2, 3, 4, 5, 6]) ∉
      [Event.send CMD_ID [0x20, 0x10, 0x00, 0x00, 0x00, 0x01]] ∧
    Event.send CMD_ID [0x20, 0x11, 0xf3, 0x33, 0xaf] ∉
      [Event.send CMD_ID [0x20, 0x10, 0x00, 0x00, 0x00, 0x01]] := by
  decide

/-! ## C3: wrong module id in the selection response -/

/-- C3.  When the `selected` response echoes module id 6 while module 5
was selected, `_select` aborts after the single select command with the
`NameError` produced by raising the undefined name `CanError`
(source line 628) — not the `ModuleError` the specification
describes. -/
theorem C3_wrong_module_id_select :
    runSelect 5 [some ⟨RSP_ID, [0x21, 0x10, 0x00, 0x00, 0x00, 0x06,
        0x00, 0x00]⟩] [] =
      (Except.error PyError.nameError, [],
        [Event.send CMD_ID [0x20, 0x10, 0x00, 0x00, 0x00, 0x05]]) ∧
    PyError.nameError ≠ PyError.moduleError := by
  decide

/-! ## C6: baudrate parameter encoding -/

/-- C6 (code bug).  `set_parameter("BaudrateBootloader1", k)`: for an
unknown rate the `BAUD_MAP` lookup raises `RuntimeError` before any
frame is sent, exactly as claimed; but for a supported rate such as
500 the 2-byte code is looked up (`FC 03`, destined for EEPROM offset
91) and then `_write_eeprom` raises `struct.error` at the unlock step,
having sent only the select command — the code is never written. -/
theorem C6_baudrate_never_written :
    baudLookup 500 = some [0xfc, 0x03] ∧
    Module_parameter_lookup "BaudrateBootloader1" = some (91, PFmt.u16) ∧
    Module_set_parameter 2 "BaudrateBootloader1" (PyVal.int 500)
        [some (selectedFrame 2)] =
      (Except.error PyError.structError, [],
        [Event.send CMD_ID [0x20, 0x10, 0x00, 0x00, 0x00, 0x02]]) ∧
    Module_set_parameter 2 "BaudrateBootloader1" (PyVal.int 5) [] =
      (Except.error PyError.runtimeError, [], []) := by
  decide

/-! ## C7: string parameter decoding -/

/-- `_read_eeprom` from a module serving memory `mem` returns exactly
the addressed byte range. -/
theorem eepromRead_eq :
    ∀ n (mem : Nat → Nat) A N, N ≤ n →
    eepromRead mem A N = (List.range N).map (fun i => mem (A + i)) := by
  intro n
  induction n with
  | zero =>
    intro mem A N hN
    have h0 : N = 0 := by omega
    subst h0
    rw [eepromRead, readEepromResult, dif_neg (by omega)]
    simp
  | succ n ih =>
    intro mem A N hN
    by_cases hpos : 0 < N
    · rw [eepromRead, readEepromResult, dif_pos hpos]
      have ihr := ih mem (A + min N 8) (N - min N 8) (by omega)
      rw [eepromRead] at ihr
      rw [ihr]
      have hsplit : N = min N 8 + (N - min N 8) := by omega
      conv_rhs => rw [hsplit]
      rw [List.range_add, List.map_append, List.map_map]
      congr 1
      apply List.map_congr_left
      intro x hx
      simp only [Function.comp_apply]
      rw [Nat.add_assoc]
    · have h0 : N = 0 := by omega
      subst h0
      rw [eepromRead, readEepromResult, dif_neg (by omega)]
      simp

/-- C7 (amended).  For every string-encoded parameter,
`Module.parameter(name)` returns the EEPROM bytes of the parameter's
range decoded as ASCII *with the trailing NUL bytes kept*
(`struct.unpack` of an `'ns'` format returns the full fixed-width
field and nothing strips the padding). -/
theorem C7_string_parameter_no_strip (mem : Nat → Nat) (name : String)
    (offset n : Nat)
    (hname : Module_parameter_lookup name = some (offset, PFmt.str n))
    (hmem : ∀ i, mem i < 128) :
    Module_parameter mem name =
      Except.ok (PValue.str
        ((List.range n).map (fun i => mem (offset + i)))) := by
  unfold Module_parameter
  rw [hname]
  simp only [PFmt.size]
  rw [eepromRead_eq n mem offset n le_rfl]
  unfold asciiDecode
  rw [if_pos]
  simp only [List.all_eq_true, List.mem_map, decide_eq_true_eq]
  rintro b ⟨i, -, rfl⟩
  exact hmem _

/-- Witness for C7: an all-`'A'` EEPROM, read through
`SoftwareVersion` (offset 107, width 20). -/
theorem C7_string_parameter_no_strip_witness :
    Module_parameter (fun _ => 65) "SoftwareVersion" =
      Except.ok (PValue.str
        ((List.range 20).map (fun i => (fun _ => 65 : Nat → Nat) (107 + i)))) :=
  C7_string_parameter_no_strip (fun _ => 65) "SoftwareVersion" 107 20
    (by decide) (fun _ => by norm_num)

/-- Counterexample to C7 as stated: with EEPROM holding `"X"` followed
by NULs in the `Name` field (offset 32, width 20), `parameter("Name")`
returns all 20 characters — not the NUL-stripped `"X"`. -/
theorem C7_counterexample :
    Module_parameter (fun i => if i = 32 then 0x58 else 0) "Name" =
      Except.ok (PValue.str (0x58 :: List.replicate 19 0)) ∧
    stripTrailingNuls (0x58 :: List.replicate 19 0) = [0x58] ∧
    (0x58 :: List.replicate 19 0) ≠ [0x58] := by
  refine ⟨?_, by decide, by decide⟩
  unfold Module_parameter
  rw [show Module_parameter_lookup "Name" = some (32, PFmt.str 20) from
    by decide]
  simp only [PFmt.size]
  rw [eepromRead_eq 20 (fun i => if i = 32 then 0x58 else 0) 32 20 le_rfl]
  decide

/-! ## C8: string parameter writes -/

/-- An ASCII character occupies one UTF-8 byte. -/
theorem utf8Size_of_ascii {c : Char} (h : c.toNat < 128) : c.utf8Size = 1 := by
  unfold Char.utf8Size
  rw [if_pos]
  rw [UInt32.le_def, BitVec.le_def]
  have h127 : (UInt32.ofNatCore 127 Char.utf8Size.proof_1).toBitVec.toNat =
      127 := rfl
  rw [h127]
  have hc : c.val.toBitVec.toNat = c.toNat := rfl
  rw [hc]
  omega

/-- For an all-ASCII string the UTF-8 byte length is the character
count. -/
theorem utf8Len_of_ascii :
    ∀ cs : List Char, cs.all (fun c => c.toNat < 128) = true →
    utf8Len cs = cs.length := by
  intro cs
  induction cs with
  | nil => intro _; rfl
  | cons c rest ih =>
    intro h
    simp only [List.all_cons, Bool.and_eq_true, decide_eq_true_eq] at h
    simp only [utf8Len, List.map_cons, List.sum_cons, List.length_cons]
    rw [utf8Size_of_ascii h.1]
    have := ih (by simpa [List.all_eq_true] using h.2)
    simp only [utf8Len] at this
    omega

/-- `encode('ascii')` succeeds exactly on all-ASCII strings. -/
theorem asciiEncode_of_ascii {cs : List Char}
    (h : cs.all (fun c => c.toNat < 128) = true) :
    asciiEncode cs = some (cs.map Char.toNat) := by
  unfold asciiEncode
  rw [if_pos h]

/-- `set_parameter` on a string-format writable name other than
`BaudrateBootloader1` reduces to the string branch of the source. -/
theorem set_parameter_str_eq (mid : Nat) (name : String) (cs : List Char)
    (width address : Nat)
    (hwrite : name ∈ PARAMETER_WRITE_OK)
    (hlook : Module_parameter_lookup name = some (address, PFmt.str width))
    (hname : ¬ name = "BaudrateBootloader1") :
    ∀ env, Module_set_parameter mid name (PyVal.str cs) env =
      (if width < cs.length then
        (Except.error PyError.runtimeError, env, [])
       else
        match asciiEncode
            (cs ++ List.replicate (width - cs.length) (Char.ofNat 0)) with
        | none => (Except.error PyError.unicodeEncodeError, env, [])
        | some bytes => runWriteEeprom mid address bytes env []) := by
  intro env
  unfold Module_set_parameter
  rw [if_pos hwrite, hlook]
  simp only []
  rw [if_neg hname]

/-- C8 (amended).  For the string parameters, `set_parameter(name, v)`
raises without sending any frame beyond at most the select command when
`v`'s character count exceeds the field width (`RuntimeError`) or when
`v` contains a non-ASCII character (`UnicodeEncodeError` from
`encode('ascii')`); in particular it always raises when `v`'s UTF-8
byte length exceeds the width.  When `v` is all-ASCII and fits, the
length and encoding checks pass and the NUL-padded bytes of exactly the
field width are handed to `_write_eeprom` — but nothing is ever
written: `_write_eeprom` raises `struct.error` at the unlock step
right after the select exchange, and no EEPROM-ID frame is sent on any
path. -/
theorem C8_string_set_parameter (mid : Nat) (name : String)
    (value : List Char) (width address : Nat)
    (hwrite : name ∈ PARAMETER_WRITE_OK)
    (hname : ¬ name = "BaudrateBootloader1")
    (hlook : Module_parameter_lookup name = some (address, PFmt.str width)) :
    (width < utf8Len value → ∀ env, ∃ e,
      Module_set_parameter mid name (PyVal.str value) env =
        (Except.error e, env, [])) ∧
    (width < value.length → ∀ env,
      Module_set_parameter mid name (PyVal.str value) env =
        (Except.error PyError.runtimeError, env, [])) ∧
    (¬ value.all (fun c => c.toNat < 128) = true → value.length ≤ width →
      ∀ env, Module_set_parameter mid name (PyVal.str value) env =
        (Except.error PyError.unicodeEncodeError, env, [])) ∧
    (value.all (fun c => c.toNat < 128) = true → value.length ≤ width →
      (paddedBytes value width).length = width ∧
      (∀ r rest, decodeRX selectedKind r = none →
        beVal ((r.data.drop 2).take 4) = mid →
        Module_set_parameter mid name (PyVal.str value) (some r :: rest) =
          (Except.error PyError.structError, rest,
            [Event.send CMD_ID ([0x20, 0x10] ++ pack32be mid)]))) ∧
    (∀ env d, Event.send EEPROM_ID d ∉
      (Module_set_parameter mid name (PyVal.str value) env).2.2) := by
  have hgen := set_parameter_str_eq mid name value width address hwrite
    hlook hname
  have hlong : width < value.length → ∀ env,
      Module_set_parameter mid name (PyVal.str value) env =
        (Except.error PyError.runtimeError, env, []) := by
    intro hl env
    rw [hgen env, if_pos hl]
  have hnonascii : ¬ value.all (fun c => c.toNat < 128) = true →
      value.length ≤ width → ∀ env,
      Module_set_parameter mid name (PyVal.str value) env =
        (Except.error PyError.unicodeEncodeError, env, []) := by
    intro hna hfit env
    rw [hgen env, if_neg (by omega)]
    have henc : asciiEncode
        (value ++ List.replicate (width - value.length) (Char.ofNat 0)) =
        none := by
      unfold asciiEncode
      rw [if_neg]
      rw [List.all_append]
      simp only [Bool.and_eq_true]
      intro hcon
      exact hna hcon.1
    rw [henc]
  refine ⟨?_, hlong, hnonascii, ?_, ?_⟩
  · intro hutf env
    by_cases hascii : value.all (fun c => c.toNat < 128) = true
    · have hlen := utf8Len_of_ascii value hascii
      exact ⟨PyError.runtimeError, hlong (by omega) env⟩
    · by_cases hfit : value.length ≤ width
      · exact ⟨PyError.unicodeEncodeError, hnonascii hascii hfit env⟩
      · exact ⟨PyError.runtimeError, hlong (by omega) env⟩
  · intro hascii hfit
    have hpadascii : (value ++ List.replicate (width - value.length)
        (Char.ofNat 0)).all (fun c => c.toNat < 128) = true := by
      rw [List.all_append]
      simp only [Bool.and_eq_true]
      refine ⟨hascii, ?_⟩
      simp only [List.all_eq_true, decide_eq_true_eq]
      intro c hc
      rw [List.eq_of_mem_replicate hc]
      decide
    constructor
    · unfold paddedBytes
      simp only [List.length_map, List.length_append, List.length_replicate]
      omega
    · intro r rest hdec hbe
      rw [hgen _, if_neg (by omega), asciiEncode_of_ascii hpadascii]
      have hh := runWriteEeprom_after_select mid address
        ((value ++ List.replicate (width - value.length)
          (Char.ofNat 0)).map Char.toNat) r rest [] hdec hbe
      simpa using hh
  · intro env d hm
    rw [hgen env] at hm
    by_cases hl : width < value.length
    · rw [if_pos hl] at hm
      simp at hm
    · rw [if_neg hl] at hm
      cases henc : asciiEncode (value ++
          List.replicate (width - value.length) (Char.ofNat 0)) with
      | none =>
        rw [henc] at hm
        simp at hm
      | some bytes =>
        rw [henc] at hm
        simp only [] at hm
        obtain ⟨-, hevs⟩ := runWriteEeprom_evs mid address bytes env []
        rw [hevs] at hm
        simp [EEPROM_ID, CMD_ID] at hm

/-- Witness for C8: writing `"X"` to `ModuleName` (offset 127, width
30) to module 3, which acknowledges the selection: the padded buffer
has the full field width, yet the run raises `struct.error` with only
the select command sent. -/
theorem C8_string_set_parameter_witness :
    (paddedBytes [Char.ofNat 88] 30).length = 30 ∧
    Module_set_parameter 3 "ModuleName" (PyVal.str [Char.ofNat 88])
        [some (selectedFrame 3)] =
      (Except.error PyError.structError, [],
        [Event.send CMD_ID ([0x20, 0x10] ++ pack32be 3)]) := by
  obtain ⟨h1, h2⟩ := (C8_string_set_parameter 3 "ModuleName"
    [Char.ofNat 88] 30 127 (by decide) (by decide) (by decide)).2.2.2.1
    (by decide) (by decide)
  exact ⟨h1, h2 (selectedFrame 3) [] (by decide) (by decide)⟩

/-- Counterexample to C8 as stated: `"é"` has UTF-8 byte length 2, well
within `SoftwareVersion`'s width 20, yet `set_parameter` raises
`UnicodeEncodeError` (from `encode('ascii')`) instead of writing the
UTF-8 bytes padded to the field width. -/
theorem C8_counterexample :
    utf8Len [Char.ofNat 233] = 2 ∧
    Module_parameter_lookup "SoftwareVersion" = some (107, PFmt.str 20) ∧
    Module_set_parameter 5 "SoftwareVersion" (PyVal.str [Char.ofNat 233])
        [] = (Except.error PyError.unicodeEncodeError, [], []) := by
  refine ⟨by decide, by decide, ?_⟩
  rw [set_parameter_str_eq 5 "SoftwareVersion" [Char.ofNat 233] 20 107
    (by decide) (by decide) (by decide) []]
  rw [if_neg (by decide)]
  rw [show asciiEncode ([Char.ofNat 233] ++
    List.replicate (20 - [Char.ofNat 233].length) (Char.ofNat 0)) = none from
    by decide]

/-! ## C9: upload ordering -/

theorem mem_of_getElem_eq_some {α : Type} {l : List α} {n : Nat} {a : α}
    (h : l[n]? = some a) : a ∈ l := by
  rcases List.getElem?_eq_some.mp h with ⟨hl, he⟩
  exact he ▸ List.getElem_mem hl

theorem getElem?_eq_some_of_mem {α : Type} {l : List α} {a : α}
    (h : a ∈ l) : ∃ n, n < l.length ∧ l[n]? = some a := by
  rcases List.getElem_of_mem h with ⟨n, hn, he⟩
  exact ⟨n, hn, by rw [List.getElem?_eq_getElem hn, he]⟩

/-- Every event emitted by `_enter_flash_mode` is a CMD-ID send; in
particular no SREC frame is sent there. -/
theorem enterFlashMode_evs (mid : Nat) (env : Env) (evs : List Event) :
    ∃ Δ, (enterFlashMode mid env evs).2.2 = evs ++ Δ ∧
      ∀ d, Event.send SREC_ID d ∉ Δ := by
  unfold enterFlashMode
  rcases hsel : runSelect mid env evs with ⟨r1, env1, evs1⟩
  have hevs1 : evs1 =
      evs ++ [Event.send CMD_ID ([0x20, 0x10] ++ pack32be mid)] := by
    have hh := runSelect_evs mid env evs
    rw [hsel] at hh
    exact hh
  cases r1 with
  | error e =>
    exact ⟨[Event.send CMD_ID ([0x20, 0x10] ++ pack32be mid)], hevs1,
      fun d hm => by simp [SREC_ID, CMD_ID] at hm⟩
  | ok sw =>
    simp only []
    rcases hcmd : runCmd MSG_program env1 evs1 with ⟨r2, env2, evs2⟩
    have hevs2 : evs2 = evs1 ++ [Event.send MSG_program.id
        MSG_program.data] := by
      have hh := runCmd_evs MSG_program env1 evs1
      rw [hcmd] at hh
      exact hh
    cases r2 with
    | error e =>
      refine ⟨[Event.send CMD_ID ([0x20, 0x10] ++ pack32be mid),
        Event.send MSG_program.id MSG_program.data], ?_, ?_⟩
      · rw [hevs2, hevs1]
        simp [List.append_assoc]
      · intro d hm
        simp [SREC_ID, CMD_ID, MSG_program] at hm
    | ok rsp =>
      simp only []
      cases hnak : decodeRX programNakKind rsp with
      | some e =>
        refine ⟨[Event.send CMD_ID ([0x20, 0x10] ++ pack32be mid),
          Event.send MSG_program.id MSG_program.data], ?_, ?_⟩
        · rw [hevs2, hevs1]
          simp [List.append_assoc]
        · intro d hm
          simp [SREC_ID, CMD_ID, MSG_program] at hm
      | none =>
        simp only []
        rcases hwb : waitForBoot mid env2 with ⟨rw_, envw⟩
        cases rw_ with
        | error e =>
          refine ⟨[Event.send CMD_ID ([0x20, 0x10] ++ pack32be mid),
            Event.send MSG_program.id MSG_program.data], ?_, ?_⟩
          · rw [hevs2, hevs1]
            simp [List.append_assoc]
          · intro d hm
            simp [SREC_ID, CMD_ID, MSG_program] at hm
        | ok u =>
          simp only []
          rcases hsel2 : runSelect mid envw evs2 with ⟨r3, env3, evs3⟩
          have hevs3 : evs3 =
              evs2 ++ [Event.send CMD_ID ([0x20, 0x10] ++ pack32be mid)] := by
            have hh := runSelect_evs mid envw evs2
            rw [hsel2] at hh
            exact hh
          cases r3 with
          | error e =>
            cases e <;>
              exact ⟨[Event.send CMD_ID ([0x20, 0x10] ++ pack32be mid),
                Event.send MSG_program.id MSG_program.data,
                Event.send CMD_ID ([0x20, 0x10] ++ pack32be mid)],
                by rw [hevs3, hevs2, hevs1]; simp [List.append_assoc],
                fun d hm => by simp [SREC_ID, CMD_ID, MSG_program] at hm⟩
          | ok sw2 =>
            simp only []
            rcases hcmd2 : runCmd MSG_program env3 evs3 with ⟨r4, env4, evs4⟩
            have hevs4 : evs4 = evs3 ++ [Event.send MSG_program.id
                MSG_program.data] := by
              have hh := runCmd_evs MSG_program env3 evs3
              rw [hcmd2] at hh
              exact hh
            cases r4 <;>
              exact ⟨[Event.send CMD_ID ([0x20, 0x10] ++ pack32be mid),
                Event.send MSG_program.id MSG_program.data,
                Event.send CMD_ID ([0x20, 0x10] ++ pack32be mid),
                Event.send MSG_program.id MSG_program.data],
                by rw [hevs4, hevs3, hevs2, hevs1]; simp [List.append_assoc],
                fun d hm => by simp [SREC_ID, CMD_ID, MSG_program] at hm⟩

/-- The erase receive loop leaves the trace unchanged unless it ends
successfully, in which case it appends exactly the completion marker. -/
theorem eraseLoop_spec :
    ∀ (env : Env) (evs : List Event) r env' evs',
    eraseLoop env evs = (r, env', evs') →
    (r = Except.ok () ∧ evs' = evs ++ [Event.eraseComplete]) ∨
    (evs' = evs ∧ r ≠ Except.ok ()) := by
  intro env
  induction env with
  | nil =>
    intro evs r env' evs' h
    simp only [eraseLoop, Prod.mk.injEq] at h
    obtain ⟨rfl, -, rfl⟩ := h
    exact Or.inr ⟨rfl, by simp⟩
  | cons o rest ih =>
    intro evs r env' evs' h
    cases o with
    | none =>
      simp only [eraseLoop, Prod.mk.injEq] at h
      obtain ⟨rfl, -, rfl⟩ := h
      exact Or.inr ⟨rfl, by simp⟩
    | some f =>
      simp only [eraseLoop] at h
      cases hdone : decodeEraseDone f with
      | none =>
        rw [hdone] at h
        simp only [Prod.mk.injEq] at h
        obtain ⟨rfl, -, rfl⟩ := h
        exact Or.inl ⟨rfl, rfl⟩
      | some e =>
        rw [hdone] at h
        simp only [] at h
        cases hprog : decodeRX progressKind f with
        | some e2 =>
          rw [hprog] at h
          simp only [Prod.mk.injEq] at h
          obtain ⟨rfl, -, rfl⟩ := h
          exact Or.inr ⟨rfl, by simp⟩
        | none =>
          rw [hprog] at h
          exact ih evs r env' evs' h

/-- `_erase` appends only the erase command send and, on success, the
completion marker; it never sends an SREC frame. -/
theorem runErase_spec (env : Env) (evs : List Event) (r : Except PyError Unit)
    (env' : Env) (evs' : List Event) (h : runErase env evs = (r, env', evs')) :
    ∃ Δ, evs' = evs ++ Δ ∧ (∀ d, Event.send SREC_ID d ∉ Δ) ∧
      (r = Except.ok () → Event.eraseComplete ∈ Δ) := by
  unfold runErase at h
  rcases eraseLoop_spec _ _ _ _ _ h with ⟨hr, hevs⟩ | ⟨hevs, hr⟩
  · refine ⟨[Event.send MSG_erase.id MSG_erase.data, Event.eraseComplete],
      ?_, ?_, fun _ => by simp⟩
    · rw [hevs]
      simp [List.append_assoc]
    · intro d hm
      simp [SREC_ID, CMD_ID, MSG_erase] at hm
  · refine ⟨[Event.send MSG_erase.id MSG_erase.data], hevs, ?_,
      fun hok => absurd hok hr⟩
    intro d hm
    simp [SREC_ID, CMD_ID, MSG_erase] at hm

/-- `sendFragments` only appends events. -/
theorem sendFragments_evs :
    ∀ (frags : List (List Nat × SrecAck)) (env : Env) (evs : List Event),
    ∃ Δ, (sendFragments frags env evs).2.2 = evs ++ Δ := by
  intro frags
  induction frags with
  | nil =>
    intro env evs
    exact ⟨[], by simp [sendFragments]⟩
  | cons p rest ih =>
    intro env evs
    obtain ⟨data, ack⟩ := p
    simp only [sendFragments]
    rcases hc : runCmd (MSG_srecord data) env evs with ⟨r1, env1, evs1⟩
    have hevs1 : evs1 = evs ++ [Event.send (MSG_srecord data).id
        (MSG_srecord data).data] := by
      have hh := runCmd_evs (MSG_srecord data) env evs
      rw [hc] at hh
      exact hh
    cases r1 with
    | error e => exact ⟨_, hevs1⟩
    | ok rsp =>
      simp only []
      cases hdec : decodeRX (srecAckKind ack) rsp with
      | some e => exact ⟨_, hevs1⟩
      | none =>
        obtain ⟨Δ2, hΔ2⟩ := ih env1 evs1
        refine ⟨[Event.send (MSG_srecord data).id (MSG_srecord data).data] ++
          Δ2, ?_⟩
        rw [hΔ2, hevs1]
        simp [List.append_assoc]

/-- `sendRecords` only appends events. -/
theorem sendRecords_evs :
    ∀ (records : List (List Nat)) (env : Env) (evs : List Event),
    ∃ Δ, (sendRecords records env evs).2.2 = evs ++ Δ := by
  intro records
  induction records with
  | nil =>
    intro env evs
    exact ⟨[], by simp [sendRecords]⟩
  | cons rec rest ih =>
    intro env evs
    simp only [sendRecords]
    rcases hf : sendFragments (programFragments rec) env evs with
      ⟨r1, env1, evs1⟩
    have hevs1 : ∃ Δ, evs1 = evs ++ Δ := by
      obtain ⟨Δ, hΔ⟩ := sendFragments_evs (programFragments rec) env evs
      rw [hf] at hΔ
      exact ⟨Δ, hΔ⟩
    cases r1 with
    | error e => exact hevs1
    | ok u =>
      simp only []
      obtain ⟨Δ1, hΔ1⟩ := hevs1
      obtain ⟨Δ2, hΔ2⟩ := ih env1 evs1
      refine ⟨Δ1 ++ Δ2, ?_⟩
      rw [hΔ2, hΔ1]
      simp [List.append_assoc]

/-- `_program` only appends events. -/
theorem runProgram_evs (records : List (List Nat)) (env : Env)
    (evs : List Event) :
    ∃ Δ, (runProgram records env evs).2.2 = evs ++ Δ := by
  unfold runProgram
  cases hlast : records.getLast? with
  | none => exact ⟨[], by simp⟩
  | some terminal =>
    simp only []
    rcases hs : sendRecords records.dropLast env evs with ⟨r1, env1, evs1⟩
    have hevs1 : ∃ Δ, evs1 = evs ++ Δ := by
      obtain ⟨Δ, hΔ⟩ := sendRecords_evs records.dropLast env evs
      rw [hs] at hΔ
      exact ⟨Δ, hΔ⟩
    cases r1 with
    | error e => exact hevs1
    | ok u =>
      simp only []
      obtain ⟨Δ1, hΔ1⟩ := hevs1
      rcases hc : runCmd (MSG_srecord terminal) env1 evs1 with ⟨r2, env2, evs2⟩
      have hevs2 : evs2 = evs1 ++ [Event.send (MSG_srecord terminal).id
          (MSG_srecord terminal).data] := by
        have hh := runCmd_evs (MSG_srecord terminal) env1 evs1
        rw [hc] at hh
        exact hh
      cases r2 with
      | error e =>
        exact ⟨Δ1 ++ [Event.send (MSG_srecord terminal).id
          (MSG_srecord terminal).data], by rw [hevs2, hΔ1]; simp⟩
      | ok rsp =>
        simp only []
        cases hdec : decodeRX srecordsDoneKind rsp with
        | some e =>
          exact ⟨Δ1 ++ [Event.send (MSG_srecord terminal).id
            (MSG_srecord terminal).data], by rw [hevs2, hΔ1]; simp⟩
        | none =>
          exact ⟨Δ1 ++ [Event.send (MSG_srecord terminal).id
            (MSG_srecord terminal).data], by rw [hevs2, hΔ1]; simp⟩

/-- C9.  `Module.upload` performs flash-mode entry, then erase, then
S-record programming, in that order; on every path, any SREC frame in
the trace of `upload` is preceded by the erase-completion event (the
reception of `MSG_erase_done`), so no S-record data is ever sent before
the erase has completed. -/
theorem C9_upload_order (mid : Nat) (records : List (List Nat)) (env : Env)
    (i : Nat) (d : List Nat)
    (h : (upload mid records env).2.2[i]? = some (Event.send SREC_ID d)) :
    ∃ j, j < i ∧
      (upload mid records env).2.2[j]? = some Event.eraseComplete := by
  unfold upload at h ⊢
  rcases hf : enterFlashMode mid env [] with ⟨r1, env1, evs1⟩
  rw [hf] at h
  obtain ⟨Δ1, hΔ1, hfree1⟩ := enterFlashMode_evs mid env []
  rw [hf] at hΔ1
  simp only [List.nil_append] at hΔ1
  subst hΔ1
  cases r1 with
  | error e =>
    simp only [] at h
    exact absurd (mem_of_getElem_eq_some h) (hfree1 d)
  | ok u =>
    simp only [] at h ⊢
    rcases he : runErase env1 evs1 with ⟨r2, env2, evs2⟩
    rw [he] at h
    obtain ⟨Δ2, hΔ2, hfree2, hcomp⟩ :=
      runErase_spec env1 evs1 r2 env2 evs2 he
    cases r2 with
    | error e =>
      simp only [] at h
      have hm := mem_of_getElem_eq_some h
      rw [hΔ2] at hm
      rcases List.mem_append.mp hm with hm | hm
      · exact absurd hm (hfree1 d)
      · exact absurd hm (hfree2 d)
    | ok u2 =>
      cases u2
      simp only [] at h ⊢
      rcases hp : runProgram records env2 evs2 with ⟨r3, env3, evs3⟩
      rw [hp] at h
      simp only [] at h ⊢
      obtain ⟨Δ3, hΔ3⟩ := runProgram_evs records env2 evs2
      rw [hp] at hΔ3
      simp only [] at hΔ3
      by_cases hi : i < evs2.length
      · exfalso
        rw [hΔ3, List.getElem?_append_left hi] at h
        have hm := mem_of_getElem_eq_some h
        rw [hΔ2] at hm
        rcases List.mem_append.mp hm with hm | hm
        · exact absurd hm (hfree1 d)
        · exact absurd hm (hfree2 d)
      · have hcm : Event.eraseComplete ∈ evs2 := by
          rw [hΔ2]
          exact List.mem_append.mpr (Or.inr (hcomp rfl))
        obtain ⟨j, hj, hjget⟩ := getElem?_eq_some_of_mem hcm
        refine ⟨j, by omega, ?_⟩
        rw [hΔ3, List.getElem?_append_left hj]
        exact hjget

/-- Witness for C9: a complete successful upload of one 1-byte memory
record and the terminal record; the SREC frame at trace index 4 is
preceded by the erase-completion event at index 3. -/
theorem C9_upload_order_witness :
    ∃ j, j < 4 ∧
      (upload 5 [[0x01], [0x09]]
        [some (selectedFrame 5),
         some ⟨RSP_ID, [0x21, 0x00, 0x00, 0x00, 0x00, 0x05, 0x00, 0x01]⟩,
         some ⟨RSP_ID, [0x00, 0x00, 0x00, 0x01]⟩,
         some ⟨RSP_ID, [0x00, 0x00, 0x01]⟩,
         some ⟨RSP_ID, [0x00, 0x12, 0x34]⟩]).2.2[j]? =
        some Event.eraseComplete :=
  C9_upload_order 5 [[0x01], [0x09]]
    [some (selectedFrame 5),
     some ⟨RSP_ID, [0x21, 0x00, 0x00, 0x00, 0x00, 0x05, 0x00, 0x01]⟩,
     some ⟨RSP_ID, [0x00, 0x00, 0x00, 0x01]⟩,
     some ⟨RSP_ID, [0x00, 0x00, 0x01]⟩,
     some ⟨RSP_ID, [0x00, 0x12, 0x34]⟩] 4 [0x01] (by decide)

/-! ## C10: scan de-duplication -/

theorem lookupDict_dictInsert_self :
    ∀ (m : List (Nat × ScanInfo)) k v,
    lookupDict (dictInsert m k v) k = some v := by
  intro m
  induction m with
  | nil =>
    intro k v
    simp [dictInsert, lookupDict]
  | cons p rest ih =>
    intro k v
    by_cases hpk : p.1 = k
    · simp only [dictInsert, if_pos hpk]
      simp [lookupDict]
    · simp only [dictInsert, if_neg hpk]
      simp only [lookupDict, List.find?_cons]
      have hb : (p.1 == k) = false := by
        rw [beq_eq_false_iff_ne]
        exact hpk
      rw [hb]
      exact ih k v

theorem lookupDict_dictInsert_ne :
    ∀ (m : List (Nat × ScanInfo)) k v id, ¬ id = k →
    lookupDict (dictInsert m k v) id = lookupDict m id := by
  intro m
  induction m with
  | nil =>
    intro k v id hne
    simp only [dictInsert, lookupDict, List.find?_cons, List.find?_nil]
    have hb : (k == id) = false := by
      rw [beq_eq_false_iff_ne]
      exact fun h => hne h.symm
    rw [hb]
  | cons p rest ih =>
    intro k v id hne
    by_cases hpk : p.1 = k
    · simp only [dictInsert, if_pos hpk]
      simp only [lookupDict, List.find?_cons]
      have hb1 : (k == id) = false := by
        rw [beq_eq_false_iff_ne]
        exact fun h => hne h.symm
      have hb2 : (p.1 == id) = false := by
        rw [beq_eq_false_iff_ne, hpk]
        exact fun h => hne h.symm
      rw [hb1, hb2]
    · simp only [dictInsert, if_neg hpk]
      simp only [lookupDict, List.find?_cons]
      cases hb : (p.1 == id) with
      | true => rfl
      | false => exact ih k v id hne

theorem mem_keys_dictInsert :
    ∀ (m : List (Nat × ScanInfo)) k v id,
    id ∈ (dictInsert m k v).map Prod.fst ↔
      (id ∈ m.map Prod.fst ∨ id = k) := by
  intro m
  induction m with
  | nil =>
    intro k v id
    simp [dictInsert]
  | cons p rest ih =>
    intro k v id
    by_cases hpk : p.1 = k
    · simp only [dictInsert, if_pos hpk]
      simp only [List.map_cons, List.mem_cons]
      constructor
      · rintro (rfl | hm)
        · exact Or.inr rfl
        · exact Or.inl (Or.inr hm)
      · rintro ((rfl | hm) | rfl)
        · exact Or.inl hpk
        · exact Or.inr hm
        · exact Or.inl rfl
    · simp only [dictInsert, if_neg hpk]
      simp only [List.map_cons, List.mem_cons]
      rw [ih k v id]
      tauto

theorem keys_dictInsert_nodup :
    ∀ (m : List (Nat × ScanInfo)) k v,
    (m.map Prod.fst).Nodup → ((dictInsert m k v).map Prod.fst).Nodup := by
  intro m
  induction m with
  | nil =>
    intro k v _
    simp [dictInsert]
  | cons p rest ih =>
    intro k v hnd
    simp only [List.map_cons, List.nodup_cons] at hnd
    by_cases hpk : p.1 = k
    · simp only [dictInsert, if_pos hpk]
      simp only [List.map_cons, List.nodup_cons]
      exact ⟨hpk ▸ hnd.1, hnd.2⟩
    · simp only [dictInsert, if_neg hpk]
      simp only [List.map_cons, List.nodup_cons]
      refine ⟨?_, ih k v hnd.2⟩
      rw [mem_keys_dictInsert]
      rintro (hm | rfl)
      · exact hnd.1 hm
      · exact hpk rfl

/-- Invariant of the scan accumulation loop: key uniqueness is
preserved and the final lookup is the most recent matching ACK,
falling back to the initial table. -/
theorem scanAccum_spec :
    ∀ (frames : List Frame) (m0 m : List (Nat × ScanInfo)),
    scanAccum frames m0 = Except.ok m →
    ((m0.map Prod.fst).Nodup → (m.map Prod.fst).Nodup) ∧
    ∀ id, lookupDict m id = (mostRecentAck frames id).or (lookupDict m0 id) := by
  intro frames
  induction frames with
  | nil =>
    intro m0 m h
    simp only [scanAccum] at h
    obtain rfl : m0 = m := by simpa using h
    exact ⟨fun hh => hh, fun id => by simp [mostRecentAck]⟩
  | cons f rest ih =>
    intro m0 m h
    simp only [scanAccum] at h
    cases ha : parseAck f with
    | none =>
      rw [ha] at h
      simp at h
    | some a =>
      rw [ha] at h
      simp only [] at h
      obtain ⟨ihnd, ihlook⟩ :=
        ih (dictInsert m0 a.module_id ⟨a.status, a.reason, a.sw_version⟩) m h
      refine ⟨fun hnd => ihnd (keys_dictInsert_nodup m0 _ _ hnd), ?_⟩
      intro id
      rw [ihlook id]
      simp only [mostRecentAck, ha]
      rw [Option.or_assoc]
      congr 1
      by_cases hid : a.module_id = id
      · rw [if_pos hid]
        subst hid
        exact lookupDict_dictInsert_self m0 _ _
      · rw [if_neg hid]
        exact lookupDict_dictInsert_ne m0 _ _ id (fun hh => hid hh.symm)

/-- C10.  When `Interface.scan` succeeds, its table has one entry per
module id, and the entry's status/reason/sw_ver fields come from the
most recently received ACK carrying that id (later replies overwrite
earlier ones). -/
theorem C10_scan_dedup (frames : List Frame) (m : List (Nat × ScanInfo))
    (h : Interface_scan frames = Except.ok m) :
    (m.map Prod.fst).Nodup ∧
    ∀ id, lookupDict m id = mostRecentAck frames id := by
  obtain ⟨hnd, hlook⟩ := scanAccum_spec frames [] m h
  refine ⟨hnd (by simp), fun id => ?_⟩
  rw [hlook id]
  simp [lookupDict]

/-- Witness for C10: two ACKs from module 7; the table keeps one entry
whose fields come from the second (most recent) ACK. -/
theorem C10_scan_dedup_witness :
    (([(7, (⟨"NO PROG", "reset", 2⟩ : ScanInfo))].map Prod.fst)).Nodup ∧
    lookupDict [(7, ⟨"NO PROG", "reset", 2⟩)] 7 =
      mostRecentAck
        [⟨ACK_ID, [0x00, 0x00, 0x00, 0x00, 0x07, 0x00, 0x00, 0x01]⟩,
         ⟨ACK_ID, [0x01, 0x00, 0x00, 0x00, 0x07, 0x04, 0x00, 0x02]⟩] 7 := by
  have h := C10_scan_dedup
    [⟨ACK_ID, [0x00, 0x00, 0x00, 0x00, 0x07, 0x00, 0x00, 0x01]⟩,
     ⟨ACK_ID, [0x01, 0x00, 0x00, 0x00, 0x07, 0x04, 0x00, 0x02]⟩]
    [(7, ⟨"NO PROG", "reset", 2⟩)] (by decide)
  exact ⟨h.1, h.2 7⟩
